import Mathlib

/-!
# ray_tracer: a shallow embedding of `ray_tracer.cpp`

The C++ `float` type is modelled by a linearly ordered field `F` with a floor
function (idealised, exact arithmetic).  The two `<cmath>` functions the
program calls, `sqrt` and `pow`, are passed explicitly as a `MathFns F`
record, so that every definition below is an ordinary computable function of
its arguments.  The three global render-mode flags become a `RenderFlags`
record.  A pointer into the sphere array (`SphereObject *`, possibly `NULL`)
is an `Option Nat`: the index of the pointee.

`SDL_Color` has four `Uint8` channels, modelled as `Fin 256`.  The conversion
of a `float` to `Uint8` truncates towards zero and has no defined result when
the truncated value is not representable, so it returns an `Option`.

Division is the total division of the field.  Whether a call reaches a
division by zero is stated separately, by the predicates
`intersectRaySphereDefined`, ..., `traceRayDefined`, which follow the control
flow of the functions and list the divisors that are evaluated.

Results that need the value of a square root are stated for any `m` with
`IsSqrt m` and instantiated at the reals with `Real.sqrt` and `Real.rpow`.

The operations `+`, `-`, `*`, `/` and `sqrt` of IEEE 754 are correctly
rounded: when the exact result of an operation on `float` values is itself a
`float` value (`IsBinary32`), the operation returns it.  The lists
`intersectRaySphereOps`, ..., `traceRayOps` collect, in program order, the
results of the operations of a run that reach a comparison or a divisor.  On an
input for which all of them are `float` values the run of the program performs
these operations on exactly the values of this embedding and takes the same
branches; a theorem with that hypothesis is a statement about such runs.
-/

namespace RayTracer

/-- The `<cmath>` functions used by the program. -/
structure MathFns (F : Type) where
  sqrt : F → F
  pow : F → F → F

/-- The global flags `LIGHTING_ENABLED`, `SPECULAR_LIGHTING_ENABLED` and
`CASTING_SHADOWS_ENABLED`. -/
structure RenderFlags where
  LIGHTING_ENABLED : Bool
  SPECULAR_LIGHTING_ENABLED : Bool
  CASTING_SHADOWS_ENABLED : Bool
deriving DecidableEq, Repr

/-- The struct `SDL_Color`: four `Uint8` channels. -/
structure SDL_Color where
  r : Fin 256
  g : Fin 256
  b : Fin 256
  a : Fin 256
deriving DecidableEq, Repr

/-- The global `BACKGROUND_COLOR = { 0, 0, 0, 255 }`. -/
def BACKGROUND_COLOR : SDL_Color := ⟨0, 0, 0, 255⟩

/-- The struct `Vector3D`. -/
structure Vector3D (F : Type) where
  x : F
  y : F
  z : F
deriving DecidableEq, Repr

/-- The struct `SphereObject`. -/
structure SphereObject (F : Type) where
  center : Vector3D F
  radius : F
  color : SDL_Color
  specular : F
deriving DecidableEq, Repr

/-- The enum `LightType`. -/
inductive LightType where
  | Ambient
  | Point
  | Directional
deriving DecidableEq, Repr

/-- The struct `Light`. -/
structure Light (F : Type) where
  type : LightType
  position : Vector3D F
  direction : Vector3D F
  intensity : F
  color : SDL_Color
deriving DecidableEq, Repr

section Defs

variable {F : Type} [LinearOrderedField F]

/-- The constant `FLT_MAX` of `<cfloat>`: `(2 ^ 24 - 1) * 2 ^ 104`. -/
def FLT_MAX : F := 340282346638528859811704183484516925440

/-- `dotProduct` (source lines 37-39). -/
def dotProduct (v1 v2 : Vector3D F) : F :=
  (v1.x * v2.x) + (v1.y * v2.y) + (v1.z * v2.z)

/-- `vecSubtract` (source lines 41-44). -/
def vecSubtract (v1 v2 : Vector3D F) : Vector3D F :=
  ⟨v1.x - v2.x, v1.y - v2.y, v1.z - v2.z⟩

/-- `vecAdd` (source lines 46-49). -/
def vecAdd (v1 v2 : Vector3D F) : Vector3D F :=
  ⟨v1.x + v2.x, v1.y + v2.y, v1.z + v2.z⟩

/-- `vecMultiply` (source lines 51-54). -/
def vecMultiply (factor : F) (v : Vector3D F) : Vector3D F :=
  ⟨factor * v.x, factor * v.y, factor * v.z⟩

/-- `vecLength` (source lines 56-58). -/
def vecLength (m : MathFns F) (v : Vector3D F) : F :=
  m.sqrt (dotProduct v v)

/-- The local `k1` of `intersectRaySphere` (line 81). -/
def rayK1 (direction : Vector3D F) : F :=
  dotProduct direction direction

/-- The local `k2` of `intersectRaySphere` (lines 79, 82). -/
def rayK2 (origin direction : Vector3D F) (sphere : SphereObject F) : F :=
  2 * dotProduct (vecSubtract origin sphere.center) direction

/-- The local `k3` of `intersectRaySphere` (lines 79, 83). -/
def rayK3 (origin : Vector3D F) (sphere : SphereObject F) : F :=
  dotProduct (vecSubtract origin sphere.center) (vecSubtract origin sphere.center)
    - sphere.radius * sphere.radius

/-- The local `discriminant` of `intersectRaySphere` (line 85). -/
def rayDiscriminant (origin direction : Vector3D F) (sphere : SphereObject F) : F :=
  rayK2 origin direction sphere * rayK2 origin direction sphere
    - 4 * rayK1 direction * rayK3 origin sphere

/-- `intersectRaySphere` (source lines 77-95); the pair is
`(results[0], results[1])`. -/
def intersectRaySphere (m : MathFns F) (origin direction : Vector3D F)
    (sphere : SphereObject F) : F × F :=
  let k1 := rayK1 direction
  let k2 := rayK2 origin direction sphere
  let discriminant := rayDiscriminant origin direction sphere
  if discriminant < 0 then (FLT_MAX, FLT_MAX)
  else ((-k2 + m.sqrt discriminant) / (2 * k1), (-k2 - m.sqrt discriminant) / (2 * k1))

/-- The test `t < closest_t && mint_t < t && t < max_t` of lines 106 and 111. -/
def acceptsRoot (mint_t max_t closest_t t : F) : Prop :=
  t < closest_t ∧ mint_t < t ∧ t < max_t

instance (mint_t max_t closest_t t : F) : Decidable (acceptsRoot mint_t max_t closest_t t) := by
  unfold acceptsRoot; infer_instance

/-- The body of the scanning loop (lines 105-114, and again 171-180) for the
sphere with index `i` whose roots are `ts`, on the running pair
`(closest_t, closest_sphere)`. -/
def closestStep (mint_t max_t : F) (ts : F × F) (i : Nat) (st : F × Option Nat) :
    F × Option Nat :=
  let st1 := if acceptsRoot mint_t max_t st.1 ts.1 then (ts.1, some i) else st
  if acceptsRoot mint_t max_t st1.1 ts.2 then (ts.2, some i) else st1

/-- The scanning loop `for (int i = ...; i < sphere_count; i++)` over the
spheres from index `i` on, started on the running pair `st`. -/
def closestLoop (m : MathFns F) (origin direction : Vector3D F) (mint_t max_t : F) :
    List (SphereObject F) → Nat → F × Option Nat → F × Option Nat
  | [], _, st => st
  | s :: rest, i, st =>
    closestLoop m origin direction mint_t max_t rest (i + 1)
      (closestStep mint_t max_t (intersectRaySphere m origin direction s) i st)

/-- `ClosestIntersection` (source lines 99-118). -/
def ClosestIntersection (m : MathFns F) (spheres : List (SphereObject F))
    (origin direction : Vector3D F) (mint_t max_t : F) : F × Option Nat :=
  closestLoop m origin direction mint_t max_t spheres 0 (FLT_MAX, none)

/-- The local `light_direction` of `computeLightingIntensity` (line 136). -/
def lightDirection (l : Light F) (point : Vector3D F) : Vector3D F :=
  if l.type = LightType.Point then vecSubtract l.position point else l.direction

/-- The local `t_max` of `computeLightingIntensity` (line 140). -/
def shadowTMax (l : Light F) : F :=
  if l.type = LightType.Point then 1 else FLT_MAX

/-- The shadow query of lines 143-144: `shadow_sphere` is not `NULL`. -/
def inShadow (m : MathFns F) (spheres : List (SphereObject F)) (point : Vector3D F)
    (l : Light F) : Bool :=
  (ClosestIntersection m spheres point (lightDirection l point) (1 / 1000) (shadowTMax l)).2.isSome

/-- The diffuse update of lines 148-149. -/
def diffuseTerm (m : MathFns F) (normal light_direction : Vector3D F) (lightIntensity : F)
    (intensity : F) : F :=
  let n_dot_l := dotProduct normal light_direction
  if n_dot_l > 0 then
    intensity + lightIntensity * n_dot_l / (vecLength m normal * vecLength m light_direction)
  else intensity

/-- The specular update of lines 152-157. -/
def specularTerm (flags : RenderFlags) (m : MathFns F)
    (normal view_angle light_direction : Vector3D F) (specular lightIntensity : F)
    (intensity : F) : F :=
  if flags.SPECULAR_LIGHTING_ENABLED = true ∧ specular ≠ -1 then
    let reflection :=
      vecSubtract (vecMultiply (2 * dotProduct normal light_direction) normal) light_direction
    let r_dot_v := dotProduct reflection view_angle
    if r_dot_v > 0 then
      intensity + lightIntensity *
        m.pow (r_dot_v / (vecLength m reflection * vecLength m view_angle)) specular
    else intensity
  else intensity

/-- The body of the loop over the lights (lines 132-158) for the light `l`, on
the running `intensity`. -/
def lightingStep (flags : RenderFlags) (m : MathFns F) (spheres : List (SphereObject F))
    (point normal view_angle : Vector3D F) (specular : F) (intensity : F) (l : Light F) : F :=
  if l.type = LightType.Ambient then intensity + l.intensity
  else
    if flags.CASTING_SHADOWS_ENABLED = true ∧ inShadow m spheres point l = true then intensity
    else
      specularTerm flags m normal view_angle (lightDirection l point) specular l.intensity
        (diffuseTerm m normal (lightDirection l point) l.intensity intensity)

/-- The loop over the lights (lines 130-159) started on the running
`intensity`. -/
def lightingLoop (flags : RenderFlags) (m : MathFns F) (spheres : List (SphereObject F))
    (point normal view_angle : Vector3D F) (specular : F) (intensity : F)
    (lights : List (Light F)) : F :=
  lights.foldl (lightingStep flags m spheres point normal view_angle specular) intensity

/-- `computeLightingIntensity` (source lines 120-161). -/
def computeLightingIntensity (flags : RenderFlags) (m : MathFns F)
    (spheres : List (SphereObject F)) (lights : List (Light F))
    (point normal view_angle : Vector3D F) (specular : F) : F :=
  if flags.LIGHTING_ENABLED = false then 1
  else lightingLoop flags m spheres point normal view_angle specular 0 lights

/-- Truncation towards zero, the first half of a `float` to integer conversion. -/
def truncate [FloorRing F] (x : F) : Int :=
  if 0 ≤ x then Int.floor x else Int.ceil x

/-- Conversion of a `float` to `Uint8`: truncation, defined only when the
truncated value is representable. -/
def floatToUint8 [FloorRing F] (x : F) : Option (Fin 256) :=
  if h : 0 ≤ truncate x ∧ truncate x < 256 then
    some ⟨(truncate x).toNat, by omega⟩
  else none

/-- The factor `(intensity > 1 ? 1 : intensity)` of lines 190-192. -/
def clampIntensity (intensity : F) : F :=
  if intensity > 1 then 1 else intensity

/-- The pair `(closest_t, closest_sphere)` of `traceRay` after line 181: the
result of `ClosestIntersection` (line 167) put through the second scan of
lines 170-181. -/
def traceRayHit (m : MathFns F) (spheres : List (SphereObject F))
    (origin direction : Vector3D F) (mint_t max_t : F) : F × Option Nat :=
  closestLoop m origin direction mint_t max_t spheres 0
    (ClosestIntersection m spheres origin direction mint_t max_t)

/-- The local `point` of `traceRay` (line 184). -/
def hitPoint (origin direction : Vector3D F) (closest_t : F) : Vector3D F :=
  vecAdd origin (vecMultiply closest_t direction)

/-- The local `normal` of `traceRay` (lines 185-186). -/
def hitNormal (m : MathFns F) (point : Vector3D F) (sphere : SphereObject F) : Vector3D F :=
  vecMultiply (1 / vecLength m (vecSubtract point sphere.center))
    (vecSubtract point sphere.center)

/-- The local `intensity` of `traceRay` (line 187) for the hit on `sphere` at
distance `closest_t`. -/
def hitIntensity (flags : RenderFlags) (m : MathFns F) (spheres : List (SphereObject F))
    (lights : List (Light F)) (origin direction : Vector3D F) (closest_t : F)
    (sphere : SphereObject F) : F :=
  computeLightingIntensity flags m spheres lights (hitPoint origin direction closest_t)
    (hitNormal m (hitPoint origin direction closest_t) sphere)
    (vecMultiply (-1) direction) sphere.specular

/-- The initialiser of `lit_color` (lines 189-194). -/
def litColor [FloorRing F] (color : SDL_Color) (intensity : F) : Option SDL_Color := do
  let r ← floatToUint8 ((color.r.val : F) * clampIntensity intensity)
  let g ← floatToUint8 ((color.g.val : F) * clampIntensity intensity)
  let b ← floatToUint8 ((color.b.val : F) * clampIntensity intensity)
  pure ⟨r, g, b, color.a⟩

/-- `traceRay` (source lines 163-198).  The result is `none` when a channel of
`lit_color` has no defined `Uint8` value. -/
def traceRay [FloorRing F] (flags : RenderFlags) (m : MathFns F) (spheres : List (SphereObject F))
    (lights : List (Light F)) (origin direction : Vector3D F) (mint_t max_t : F) :
    Option SDL_Color :=
  match traceRayHit m spheres origin direction mint_t max_t with
  | (closest_t, some i) =>
    match spheres[i]? with
    | some sphere =>
      litColor sphere.color
        (hitIntensity flags m spheres lights origin direction closest_t sphere)
    | none => none
  | (_, none) => some BACKGROUND_COLOR

/-- The array `spheres` set up in `main` (source lines 248-253). -/
def mainSpheres : List (SphereObject F) :=
  [ ⟨⟨0, 1, 3⟩, 1, ⟨255, 0, 0, 255⟩, 500⟩,
    ⟨⟨2, 0, 4⟩, 1, ⟨0, 255, 0, 255⟩, 500⟩,
    ⟨⟨-2, 0, 4⟩, 1, ⟨0, 0, 255, 255⟩, 10⟩,
    ⟨⟨0, -5001, 0⟩, 5000, ⟨255, 255, 0, 255⟩, 1000⟩ ]

/-- The array `lights` set up in `main` (source lines 256-260); the `color`
field, left out of the initialisers, is zero. -/
def mainLights : List (Light F) :=
  [ ⟨LightType.Ambient, ⟨0, 0, 0⟩, ⟨0, 0, 0⟩, 2 / 10, ⟨0, 0, 0, 0⟩⟩,
    ⟨LightType.Point, ⟨2, 1, 0⟩, ⟨0, 0, 0⟩, 6 / 10, ⟨0, 0, 0, 0⟩⟩,
    ⟨LightType.Directional, ⟨0, 0, 0⟩, ⟨1, 4, 4⟩, 2 / 10, ⟨0, 0, 0, 0⟩⟩ ]

/-- The single red sphere of the end-to-end scenario: the first sphere of
`main`. -/
def scenarioSphere : SphereObject F := ⟨⟨0, 1, 3⟩, 1, ⟨255, 0, 0, 255⟩, 500⟩

/-- The two lights of the end-to-end scenario: the first two lights of
`main`. -/
def scenarioLights : List (Light F) :=
  [ ⟨LightType.Ambient, ⟨0, 0, 0⟩, ⟨0, 0, 0⟩, 2 / 10, ⟨0, 0, 0, 0⟩⟩,
    ⟨LightType.Point, ⟨2, 1, 0⟩, ⟨0, 0, 0⟩, 6 / 10, ⟨0, 0, 0, 0⟩⟩ ]

/-- The global `CAMERA_POSITION = { 0, 0, 0 }`. -/
def CAMERA_POSITION : Vector3D F := ⟨0, 0, 0⟩

/-- No division by zero is reached in the call `intersectRaySphere(origin,
direction, sphere)`: the divisor `2 * k1` of lines 92-93 is non-zero, unless
the early return of lines 86-90 is taken. -/
def intersectRaySphereDefined (origin direction : Vector3D F) (sphere : SphereObject F) : Prop :=
  rayDiscriminant origin direction sphere < 0 ∨ 2 * rayK1 direction ≠ 0

instance (origin direction : Vector3D F) (sphere : SphereObject F) :
    Decidable (intersectRaySphereDefined origin direction sphere) := by
  unfold intersectRaySphereDefined; infer_instance

/-- No division by zero is reached in a scan of the spheres (lines 104-115,
170-181): none is reached in any of its `intersectRaySphere` calls. -/
def ClosestIntersectionDefined (spheres : List (SphereObject F))
    (origin direction : Vector3D F) : Prop :=
  ∀ s ∈ spheres, intersectRaySphereDefined origin direction s

instance (spheres : List (SphereObject F)) (origin direction : Vector3D F) :
    Decidable (ClosestIntersectionDefined spheres origin direction) := by
  unfold ClosestIntersectionDefined; infer_instance

/-- No division by zero is reached in the loop body of
`computeLightingIntensity` for the light `l`: for a point or directional light,
none in the shadow query of line 143 when shadows are enabled, the divisor of
line 149 is non-zero when `n_dot_l > 0`, and the divisor of line 156 is
non-zero when the specular branch is taken and `r_dot_v > 0`.  The last two
are required whether or not line 144 skips the light, which covers every
evaluation of the two divisions. -/
def lightingStepDefined (flags : RenderFlags) (m : MathFns F) (spheres : List (SphereObject F))
    (point normal view_angle : Vector3D F) (specular : F) (l : Light F) : Prop :=
  l.type = LightType.Ambient ∨
    ((flags.CASTING_SHADOWS_ENABLED = true →
        ClosestIntersectionDefined spheres point (lightDirection l point)) ∧
     (dotProduct normal (lightDirection l point) > 0 →
        vecLength m normal * vecLength m (lightDirection l point) ≠ 0) ∧
     (flags.SPECULAR_LIGHTING_ENABLED = true ∧ specular ≠ -1 →
        dotProduct
            (vecSubtract
              (vecMultiply (2 * dotProduct normal (lightDirection l point)) normal)
              (lightDirection l point)) view_angle > 0 →
        vecLength m
            (vecSubtract
              (vecMultiply (2 * dotProduct normal (lightDirection l point)) normal)
              (lightDirection l point)) * vecLength m view_angle ≠ 0))

instance (flags : RenderFlags) (m : MathFns F) (spheres : List (SphereObject F))
    (point normal view_angle : Vector3D F) (specular : F) (l : Light F) :
    Decidable (lightingStepDefined flags m spheres point normal view_angle specular l) := by
  unfold lightingStepDefined; infer_instance

/-- No division by zero is reached in `computeLightingIntensity`. -/
def computeLightingIntensityDefined (flags : RenderFlags) (m : MathFns F)
    (spheres : List (SphereObject F)) (lights : List (Light F))
    (point normal view_angle : Vector3D F) (specular : F) : Prop :=
  flags.LIGHTING_ENABLED = false ∨
    ∀ l ∈ lights, lightingStepDefined flags m spheres point normal view_angle specular l

instance (flags : RenderFlags) (m : MathFns F)
    (spheres : List (SphereObject F)) (lights : List (Light F))
    (point normal view_angle : Vector3D F) (specular : F) :
    Decidable (computeLightingIntensityDefined flags m spheres lights point normal view_angle
      specular) := by
  unfold computeLightingIntensityDefined; infer_instance

/-- No division by zero is reached in `traceRay`: none in the two scans of
the spheres and, on a hit, the divisor `vecLength(normal)` of line 186 is
non-zero and none is reached in the call of `computeLightingIntensity`. -/
def traceRayDefined (flags : RenderFlags) (m : MathFns F) (spheres : List (SphereObject F))
    (lights : List (Light F)) (origin direction : Vector3D F) (mint_t max_t : F) : Prop :=
  ClosestIntersectionDefined spheres origin direction ∧
  match traceRayHit m spheres origin direction mint_t max_t with
  | (closest_t, some i) =>
    match spheres[i]? with
    | some sphere =>
      vecLength m (vecSubtract (hitPoint origin direction closest_t) sphere.center) ≠ 0 ∧
      computeLightingIntensityDefined flags m spheres lights
        (hitPoint origin direction closest_t)
        (hitNormal m (hitPoint origin direction closest_t) sphere)
        (vecMultiply (-1) direction) sphere.specular
    | none => False
  | (_, none) => True

instance (flags : RenderFlags) (m : MathFns F) (spheres : List (SphereObject F))
    (lights : List (Light F)) (origin direction : Vector3D F) (mint_t max_t : F) :
    Decidable (traceRayDefined flags m spheres lights origin direction mint_t max_t) := by
  unfold traceRayDefined
  split <;> [split; skip] <;> infer_instance

/-- A finite value of the type `float` (IEEE 754 binary32): `mant * 2 ^ e` with
`|mant| < 2 ^ 24` and `-149 ≤ e ≤ 104`.  A floating-point operation whose exact
result is such a value returns it unchanged: nothing is rounded, overflows or
underflows. -/
def IsBinary32 (x : F) : Prop :=
  ∃ mant e : Int, |mant| < 2 ^ 24 ∧ -149 ≤ e ∧ e ≤ 104 ∧ x = (mant : F) * (2 : F) ^ e

/-- The results of the arithmetic operations of `dotProduct` (line 38), in
evaluation order. -/
def dotProductOps (v1 v2 : Vector3D F) : List F :=
  [v1.x * v2.x, v1.y * v2.y, (v1.x * v2.x) + (v1.y * v2.y), v1.z * v2.z, dotProduct v1 v2]

/-- The results of the arithmetic operations of `vecSubtract` (line 42). -/
def vecSubtractOps (v1 v2 : Vector3D F) : List F :=
  [v1.x - v2.x, v1.y - v2.y, v1.z - v2.z]

/-- The results of the arithmetic operations of `vecAdd` (line 47). -/
def vecAddOps (v1 v2 : Vector3D F) : List F :=
  [v1.x + v2.x, v1.y + v2.y, v1.z + v2.z]

/-- The results of the arithmetic operations of `vecMultiply` (line 52). -/
def vecMultiplyOps (factor : F) (v : Vector3D F) : List F :=
  [factor * v.x, factor * v.y, factor * v.z]

/-- The results of the arithmetic operations of `vecLength` (line 57). -/
def vecLengthOps (m : MathFns F) (v : Vector3D F) : List F :=
  dotProductOps v v ++ [vecLength m v]

/-- The results of the arithmetic operations of one call of
`intersectRaySphere` (lines 79-93), in program order; those of lines 92-93
only when the early return of lines 86-90 is not taken. -/
def intersectRaySphereOps (m : MathFns F) (origin direction : Vector3D F)
    (sphere : SphereObject F) : List F :=
  vecSubtractOps origin sphere.center ++
  dotProductOps direction direction ++
  dotProductOps (vecSubtract origin sphere.center) direction ++
  [rayK2 origin direction sphere] ++
  dotProductOps (vecSubtract origin sphere.center) (vecSubtract origin sphere.center) ++
  [sphere.radius * sphere.radius, rayK3 origin sphere] ++
  [rayK2 origin direction sphere * rayK2 origin direction sphere,
   4 * rayK1 direction,
   4 * rayK1 direction * rayK3 origin sphere,
   rayDiscriminant origin direction sphere] ++
  (if rayDiscriminant origin direction sphere < 0 then []
   else
    [m.sqrt (rayDiscriminant origin direction sphere),
     -rayK2 origin direction sphere,
     -rayK2 origin direction sphere + m.sqrt (rayDiscriminant origin direction sphere),
     2 * rayK1 direction,
     (intersectRaySphere m origin direction sphere).1,
     -rayK2 origin direction sphere - m.sqrt (rayDiscriminant origin direction sphere),
     (intersectRaySphere m origin direction sphere).2])

/-- The results of the arithmetic operations of one scan of the spheres
(lines 104-115; the scan of lines 170-181 repeats the same operations). -/
def scanOps (m : MathFns F) (origin direction : Vector3D F) :
    List (SphereObject F) → List F
  | [] => []
  | s :: rest => intersectRaySphereOps m origin direction s ++ scanOps m origin direction rest

/-- The results of the arithmetic operations of the loop body of
`computeLightingIntensity` for the light `l` that reach a comparison or a
divisor: the light direction (line 136), the shadow query (line 143), `n_dot_l`
(line 148), the divisor of line 149 when `n_dot_l > 0`, and in the specular
branch the reflection vector, `r_dot_v` (lines 154-155) and the divisor of line
156 when `r_dot_v > 0`.  The operations of lines 148-156 are listed whether or
not line 144 skips the light: the program compares the roots of the shadow
query with the `float` nearest to `0.001`, this embedding with `1 / 1000`, and
the two can disagree on the skip for a root equal to that `float`.  The terms
added to `intensity` are not listed: no comparison and no divisor depends on
them. -/
def lightingStepOps (flags : RenderFlags) (m : MathFns F) (spheres : List (SphereObject F))
    (point normal view_angle : Vector3D F) (specular : F) (l : Light F) : List F :=
  if l.type = LightType.Ambient then []
  else
    (if l.type = LightType.Point then vecSubtractOps l.position point else []) ++
    (if flags.CASTING_SHADOWS_ENABLED = true then
      scanOps m point (lightDirection l point) spheres else []) ++
    dotProductOps normal (lightDirection l point) ++
    (if dotProduct normal (lightDirection l point) > 0 then
      vecLengthOps m (lightDirection l point) ++
        [vecLength m normal * vecLength m (lightDirection l point)]
     else []) ++
    (if flags.SPECULAR_LIGHTING_ENABLED = true ∧ specular ≠ -1 then
      [2 * dotProduct normal (lightDirection l point)] ++
      vecMultiplyOps (2 * dotProduct normal (lightDirection l point)) normal ++
      vecSubtractOps (vecMultiply (2 * dotProduct normal (lightDirection l point)) normal)
        (lightDirection l point) ++
      dotProductOps
        (vecSubtract (vecMultiply (2 * dotProduct normal (lightDirection l point)) normal)
          (lightDirection l point)) view_angle ++
      (if dotProduct
          (vecSubtract (vecMultiply (2 * dotProduct normal (lightDirection l point)) normal)
            (lightDirection l point)) view_angle > 0 then
        vecLengthOps m
          (vecSubtract (vecMultiply (2 * dotProduct normal (lightDirection l point)) normal)
            (lightDirection l point)) ++
        [vecLength m
          (vecSubtract (vecMultiply (2 * dotProduct normal (lightDirection l point)) normal)
            (lightDirection l point)) * vecLength m view_angle]
       else [])
     else [])

/-- The operations of `lightingStepOps` for every light of the list, in loop
order. -/
def lightingLoopOps (flags : RenderFlags) (m : MathFns F) (spheres : List (SphereObject F))
    (point normal view_angle : Vector3D F) (specular : F) : List (Light F) → List F
  | [] => []
  | l :: rest =>
    lightingStepOps flags m spheres point normal view_angle specular l ++
      lightingLoopOps flags m spheres point normal view_angle specular rest

/-- The results of the arithmetic operations of `computeLightingIntensity`
that reach a comparison or a divisor: none when lighting is disabled, else
`length_normal` and `length_view` (lines 124-125) and those of the loop. -/
def computeLightingIntensityOps (flags : RenderFlags) (m : MathFns F)
    (spheres : List (SphereObject F)) (lights : List (Light F))
    (point normal view_angle : Vector3D F) (specular : F) : List F :=
  if flags.LIGHTING_ENABLED = false then []
  else
    vecLengthOps m normal ++ vecLengthOps m view_angle ++
      lightingLoopOps flags m spheres point normal view_angle specular lights

/-- The results of the arithmetic operations of `traceRay` that reach a
comparison or a divisor: the scan of the spheres and, on a hit, the hit point
(line 184), the normal (lines 185-186), the view vector and the operations of
`computeLightingIntensity` (line 187). -/
def traceRayOps (flags : RenderFlags) (m : MathFns F) (spheres : List (SphereObject F))
    (lights : List (Light F)) (origin direction : Vector3D F) (mint_t max_t : F) : List F :=
  scanOps m origin direction spheres ++
  match traceRayHit m spheres origin direction mint_t max_t with
  | (closest_t, some i) =>
    match spheres[i]? with
    | some sphere =>
      vecMultiplyOps closest_t direction ++
      vecAddOps origin (vecMultiply closest_t direction) ++
      vecSubtractOps (hitPoint origin direction closest_t) sphere.center ++
      vecLengthOps m (vecSubtract (hitPoint origin direction closest_t) sphere.center) ++
      [1 / vecLength m (vecSubtract (hitPoint origin direction closest_t) sphere.center)] ++
      vecMultiplyOps
        (1 / vecLength m (vecSubtract (hitPoint origin direction closest_t) sphere.center))
        (vecSubtract (hitPoint origin direction closest_t) sphere.center) ++
      vecMultiplyOps (-1) direction ++
      computeLightingIntensityOps flags m spheres lights
        (hitPoint origin direction closest_t)
        (hitNormal m (hitPoint origin direction closest_t) sphere)
        (vecMultiply (-1) direction) sphere.specular
    | none => []
  | (_, none) => []

/-- The results of the arithmetic operations compared by the scaling law: the
scaled direction `k * D`, the two calls of `intersectRaySphere`, and, when the
calls return roots, the two quotients by `k` and the four points
`O + t * direction`. -/
def scaleOps (m : MathFns F) (origin direction : Vector3D F) (sphere : SphereObject F)
    (k : F) : List F :=
  vecMultiplyOps k direction ++
  intersectRaySphereOps m origin direction sphere ++
  intersectRaySphereOps m origin (vecMultiply k direction) sphere ++
  (if rayDiscriminant origin direction sphere < 0 then []
   else
    [(intersectRaySphere m origin direction sphere).1 / k,
     (intersectRaySphere m origin direction sphere).2 / k] ++
    vecMultiplyOps (intersectRaySphere m origin direction sphere).1 direction ++
    vecAddOps origin (vecMultiply (intersectRaySphere m origin direction sphere).1 direction) ++
    vecMultiplyOps (intersectRaySphere m origin direction sphere).2 direction ++
    vecAddOps origin (vecMultiply (intersectRaySphere m origin direction sphere).2 direction) ++
    vecMultiplyOps (intersectRaySphere m origin (vecMultiply k direction) sphere).1
      (vecMultiply k direction) ++
    vecAddOps origin
      (vecMultiply (intersectRaySphere m origin (vecMultiply k direction) sphere).1
        (vecMultiply k direction)) ++
    vecMultiplyOps (intersectRaySphere m origin (vecMultiply k direction) sphere).2
      (vecMultiply k direction) ++
    vecAddOps origin
      (vecMultiply (intersectRaySphere m origin (vecMultiply k direction) sphere).2
        (vecMultiply k direction)))

/-- A value `t` is one of the two roots in `ts`. -/
def IsRootOf (ts : F × F) (t : F) : Prop := t = ts.1 ∨ t = ts.2

/-- A value `t` lies strictly inside the window `(mint_t, max_t)`. -/
def InWindow (mint_t max_t t : F) : Prop := mint_t < t ∧ t < max_t

instance (ts : F × F) (t : F) : Decidable (IsRootOf ts t) := by
  unfold IsRootOf; infer_instance

instance (mint_t max_t t : F) : Decidable (InWindow mint_t max_t t) := by
  unfold InWindow; infer_instance

/-- The record `m` supplies a square root: on non-negative arguments `m.sqrt`
is the non-negative number whose square is the argument. -/
def IsSqrt (m : MathFns F) : Prop :=
  ∀ x : F, 0 ≤ x → 0 ≤ m.sqrt x ∧ m.sqrt x * m.sqrt x = x

/-- The record `m` supplies a power function that is non-negative on
non-negative bases, as `pow` of `<cmath>` is. -/
def IsPowNonneg (m : MathFns F) : Prop :=
  ∀ x y : F, 0 ≤ x → 0 ≤ m.pow x y

/-- The constant `WIDTH = 800` (source line 12). -/
def WIDTH : Int := 800

/-- The constant `HEIGHT = 600` (source line 12). -/
def HEIGHT : Int := 600

/-- The constant `ASPECT_RATIO = (float)WIDTH / (float)HEIGHT` (source line 13). -/
def ASPECT_RATIO : F := (WIDTH : F) / (HEIGHT : F)

/-- The constant `VIEWPORT_SIZE = 1` (source line 14). -/
def VIEWPORT_SIZE : Int := 1

/-- The constant `PROJECTION_PLANE_Z = 1` (source line 15). -/
def PROJECTION_PLANE_Z : Int := 1

/-- `canvasToViewport` (source lines 32-35); the `int` constants are converted
to `float` by the usual arithmetic conversions, so both divisions are
floating-point divisions. -/
def canvasToViewport (x y : F) : Vector3D F :=
  ⟨x * (VIEWPORT_SIZE : F) / (WIDTH : F) * ASPECT_RATIO,
   y * (VIEWPORT_SIZE : F) / (HEIGHT : F),
   (PROJECTION_PLANE_Z : F)⟩

/-- The pixel tracer as the specification words it (section 4.6): run the
nearest-hit resolver once; on no hit return the background colour; on a hit
shade the sphere and the distance the resolver returned. -/
def traceRaySingleScan [FloorRing F] (flags : RenderFlags) (m : MathFns F)
    (spheres : List (SphereObject F)) (lights : List (Light F))
    (origin direction : Vector3D F) (mint_t max_t : F) : Option SDL_Color :=
  match ClosestIntersection m spheres origin direction mint_t max_t with
  | (closest_t, some i) =>
    match spheres[i]? with
    | some sphere =>
      litColor sphere.color
        (hitIntensity flags m spheres lights origin direction closest_t sphere)
    | none => none
  | (_, none) => some BACKGROUND_COLOR

/-- The sum of the intensities of all lights of a list. -/
def totalLightIntensity (lights : List (Light F)) : F :=
  (lights.map (fun l => l.intensity)).sum

end Defs

section ClosestLemmas

variable {F : Type} [LinearOrderedField F]

theorem closestStep_cases (mint_t max_t : F) (ts : F × F) (i : Nat) (st : F × Option Nat) :
    closestStep mint_t max_t ts i st = st ∨
      ∃ t, IsRootOf ts t ∧ closestStep mint_t max_t ts i st = (t, some i) ∧
        InWindow mint_t max_t t ∧ t < st.1 := by
  unfold closestStep acceptsRoot IsRootOf InWindow
  by_cases h1 : ts.1 < st.1 ∧ mint_t < ts.1 ∧ ts.1 < max_t
  · by_cases h2 : ts.2 < ts.1 ∧ mint_t < ts.2 ∧ ts.2 < max_t
    · right
      refine ⟨ts.2, Or.inr rfl, ?_, ⟨h2.2.1, h2.2.2⟩, lt_trans h2.1 h1.1⟩
      simp [h1, h2]
    · right
      refine ⟨ts.1, Or.inl rfl, ?_, ⟨h1.2.1, h1.2.2⟩, h1.1⟩
      simp [h1, h2]
  · by_cases h2 : ts.2 < st.1 ∧ mint_t < ts.2 ∧ ts.2 < max_t
    · right
      refine ⟨ts.2, Or.inr rfl, ?_, ⟨h2.2.1, h2.2.2⟩, h2.1⟩
      simp [h1, h2]
    · left
      simp [h1, h2]

theorem closestStep_le (mint_t max_t : F) (ts : F × F) (i : Nat) (st : F × Option Nat) :
    (closestStep mint_t max_t ts i st).1 ≤ st.1 := by
  rcases closestStep_cases mint_t max_t ts i st with h | ⟨t, -, h, -, hlt⟩
  · rw [h]
  · rw [h]; exact le_of_lt hlt

theorem closestStep_le_root (mint_t max_t : F) (ts : F × F) (i : Nat) (st : F × Option Nat)
    (t : F) (ht : IsRootOf ts t) (hw : InWindow mint_t max_t t) :
    (closestStep mint_t max_t ts i st).1 ≤ t := by
  unfold closestStep acceptsRoot
  unfold IsRootOf at ht
  unfold InWindow at hw
  obtain ⟨hw1, hw2⟩ := hw
  by_cases h1 : ts.1 < st.1 ∧ mint_t < ts.1 ∧ ts.1 < max_t
  · by_cases h2 : ts.2 < ts.1 ∧ mint_t < ts.2 ∧ ts.2 < max_t
    · simp only [h1, h2, and_self, if_true]
      rcases ht with rfl | rfl
      · exact le_of_lt h2.1
      · exact le_refl _
    · simp only [h1, h2, and_self, if_true, if_false]
      rcases ht with rfl | rfl
      · exact le_refl _
      · by_contra hc
        exact h2 ⟨not_le.mp hc, hw1, hw2⟩
  · by_cases h2 : ts.2 < st.1 ∧ mint_t < ts.2 ∧ ts.2 < max_t
    · simp only [h1, h2, and_self, if_true, if_false]
      rcases ht with rfl | rfl
      · by_contra hc
        exact h1 ⟨lt_trans (not_le.mp hc) h2.1, hw1, hw2⟩
      · exact le_refl _
    · simp only [h1, h2, if_false]
      rcases ht with rfl | rfl
      · by_contra hc
        exact h1 ⟨not_le.mp hc, hw1, hw2⟩
      · by_contra hc
        exact h2 ⟨not_le.mp hc, hw1, hw2⟩

theorem closestLoop_le (m : MathFns F) (origin direction : Vector3D F) (mint_t max_t : F)
    (l : List (SphereObject F)) (i : Nat) (st : F × Option Nat) :
    (closestLoop m origin direction mint_t max_t l i st).1 ≤ st.1 := by
  induction l generalizing i st with
  | nil => simp [closestLoop]
  | cons s rest ih =>
    simp only [closestLoop]
    exact le_trans (ih _ _) (closestStep_le _ _ _ _ _)

/-- Every root inside the window of every scanned sphere is at least the
distance the scan ends on. -/
theorem closestLoop_le_root (m : MathFns F) (origin direction : Vector3D F) (mint_t max_t : F)
    (l : List (SphereObject F)) (i : Nat) (st : F × Option Nat)
    (s : SphereObject F) (hs : s ∈ l) (t : F)
    (ht : IsRootOf (intersectRaySphere m origin direction s) t)
    (hw : InWindow mint_t max_t t) :
    (closestLoop m origin direction mint_t max_t l i st).1 ≤ t := by
  induction l generalizing i st with
  | nil => simp at hs
  | cons s0 rest ih =>
    simp only [closestLoop]
    rcases List.mem_cons.mp hs with rfl | hmem
    · exact le_trans (closestLoop_le _ _ _ _ _ _ _ _) (closestStep_le_root _ _ _ _ _ t ht hw)
    · exact ih _ _ hmem

/-- The scan either leaves the running pair untouched, or ends on a root,
inside the window and strictly below the initial distance, of the sphere
whose index it returns. -/
theorem closestLoop_cases (m : MathFns F) (origin direction : Vector3D F) (mint_t max_t : F)
    (l : List (SphereObject F)) (i : Nat) (st : F × Option Nat) :
    closestLoop m origin direction mint_t max_t l i st = st ∨
      ∃ k s t, l[k]? = some s ∧
        closestLoop m origin direction mint_t max_t l i st = (t, some (i + k)) ∧
        IsRootOf (intersectRaySphere m origin direction s) t ∧
        InWindow mint_t max_t t ∧ t < st.1 := by
  induction l generalizing i st with
  | nil => left; simp [closestLoop]
  | cons s0 rest ih =>
    simp only [closestLoop]
    rcases ih (i + 1)
      (closestStep mint_t max_t (intersectRaySphere m origin direction s0) i st) with
      h | ⟨k, s, t, hk, hres, hroot, hwin, hlt⟩
    · rw [h]
      rcases closestStep_cases mint_t max_t (intersectRaySphere m origin direction s0) i st with
        h0 | ⟨t, hroot, h0, hwin, hlt⟩
      · left; exact h0
      · right
        exact ⟨0, s0, t, by simp, by simpa using h0, hroot, hwin, hlt⟩
    · right
      refine ⟨k + 1, s, t, by simpa using hk, ?_, hroot, hwin,
        lt_of_lt_of_le hlt (closestStep_le _ _ _ _ _)⟩
      rw [hres]
      congr 2
      omega

/-- When no scanned sphere has a root inside the window below the running
distance, the scan leaves the running pair untouched. -/
theorem closestLoop_eq_self (m : MathFns F) (origin direction : Vector3D F) (mint_t max_t : F)
    (l : List (SphereObject F)) (i : Nat) (st : F × Option Nat)
    (h : ∀ s ∈ l, ∀ t, IsRootOf (intersectRaySphere m origin direction s) t →
      InWindow mint_t max_t t → st.1 ≤ t) :
    closestLoop m origin direction mint_t max_t l i st = st := by
  rcases closestLoop_cases m origin direction mint_t max_t l i st with
    h0 | ⟨k, s, t, hk, -, hroot, hwin, hlt⟩
  · exact h0
  · exact absurd (h s (List.getElem?_mem hk) t hroot hwin) (not_le.mpr hlt)

/-- Scan order: when the scan ends on the sphere at offset `k`, every root
inside the window of every sphere scanned before it is strictly greater than
the distance the scan ends on. -/
theorem closestLoop_first (m : MathFns F) (origin direction : Vector3D F) (mint_t max_t : F)
    (l : List (SphereObject F)) (b : Nat) (st : F × Option Nat) (t : F) (k : Nat)
    (hst : ∀ n, st.2 = some n → n < b)
    (hres : closestLoop m origin direction mint_t max_t l b st = (t, some (b + k))) :
    ∀ j s, j < k → l[j]? = some s →
      ∀ r, IsRootOf (intersectRaySphere m origin direction s) r → InWindow mint_t max_t r →
        t < r := by
  induction l generalizing b st k with
  | nil =>
    simp only [closestLoop] at hres
    have := hst (b + k) (by rw [hres])
    omega
  | cons s0 rest ih =>
    intro j s hj hs r hroot hwin
    simp only [closestLoop] at hres
    have hst1 : ∀ n,
        (closestStep mint_t max_t (intersectRaySphere m origin direction s0) b st).2 = some n →
          n < b + 1 := by
      intro n hn
      rcases closestStep_cases mint_t max_t (intersectRaySphere m origin direction s0) b st with
        h | ⟨t0, -, h, -, -⟩
      · rw [h] at hn
        exact Nat.lt_succ_of_lt (hst n hn)
      · rw [h] at hn
        simp only [Option.some.injEq] at hn
        omega
    cases k with
    | zero => omega
    | succ k1 =>
      have hres1 : closestLoop m origin direction mint_t max_t rest (b + 1)
          (closestStep mint_t max_t (intersectRaySphere m origin direction s0) b st)
          = (t, some (b + 1 + k1)) := by
        rw [hres]; congr 2; omega
      cases j with
      | zero =>
        simp only [List.getElem?_cons_zero, Option.some.injEq] at hs
        subst hs
        have hle := closestStep_le_root mint_t max_t (intersectRaySphere m origin direction s0)
          b st r hroot hwin
        rcases closestLoop_cases m origin direction mint_t max_t rest (b + 1)
          (closestStep mint_t max_t (intersectRaySphere m origin direction s0) b st) with
          h | ⟨k2, s2, t2, -, h, -, -, hlt⟩
        · rw [h] at hres1
          have := hst1 (b + 1 + k1) (by rw [hres1])
          omega
        · rw [h] at hres1
          simp only [Prod.mk.injEq] at hres1
          rw [← hres1.1]
          exact lt_of_lt_of_le hlt hle
      | succ j1 =>
        simp only [List.getElem?_cons_succ] at hs
        exact ih (b + 1) _ k1 hst1 hres1 j1 s (by omega) hs r hroot hwin

/-- The second scan of `traceRay` changes nothing: the pair shaded by
`traceRay` is the pair `ClosestIntersection` returned. -/
theorem traceRayHit_eq (m : MathFns F) (spheres : List (SphereObject F))
    (origin direction : Vector3D F) (mint_t max_t : F) :
    traceRayHit m spheres origin direction mint_t max_t =
      ClosestIntersection m spheres origin direction mint_t max_t := by
  unfold traceRayHit
  apply closestLoop_eq_self
  intro s hs t ht hw
  exact closestLoop_le_root m origin direction mint_t max_t spheres 0 _ s hs t ht hw

/-- For a window ending at most at `FLT_MAX`, `ClosestIntersection` returns a
sphere exactly when some sphere has a root strictly inside the window. -/
theorem ClosestIntersection_isSome_iff (m : MathFns F) (spheres : List (SphereObject F))
    (origin direction : Vector3D F) (mint_t max_t : F) (hmax : max_t ≤ FLT_MAX) :
    (ClosestIntersection m spheres origin direction mint_t max_t).2.isSome = true ↔
      ∃ s ∈ spheres, ∃ t, IsRootOf (intersectRaySphere m origin direction s) t ∧
        InWindow mint_t max_t t := by
  have hcases := closestLoop_cases m origin direction mint_t max_t spheres 0 (FLT_MAX, none)
  unfold ClosestIntersection
  constructor
  · intro hsome
    rcases hcases with h | ⟨k, s, t, hk, hres, hroot, hwin, -⟩
    · rw [h] at hsome; simp at hsome
    · exact ⟨s, List.getElem?_mem hk, t, hroot, hwin⟩
  · rintro ⟨s, hs, t, hroot, hwin⟩
    rcases hcases with h | ⟨k, s1, t1, -, hres, -, -, -⟩
    · have h1 := closestLoop_le_root m origin direction mint_t max_t spheres 0 (FLT_MAX, none)
        s hs t hroot hwin
      rw [h] at h1
      exact absurd (lt_of_lt_of_le hwin.2 hmax) (not_lt.mpr h1)
    · rw [hres]; rfl

end ClosestLemmas

section VectorLemmas

variable {F : Type} [LinearOrderedField F]

theorem dotProduct_self_nonneg (v : Vector3D F) : 0 ≤ dotProduct v v := by
  unfold dotProduct
  nlinarith [mul_self_nonneg v.x, mul_self_nonneg v.y, mul_self_nonneg v.z]

theorem dotProduct_self_eq_zero (v : Vector3D F) (h : dotProduct v v = 0) : v = ⟨0, 0, 0⟩ := by
  unfold dotProduct at h
  have hx : v.x = 0 := by
    by_contra hc
    have := mul_self_pos.mpr hc
    nlinarith [mul_self_nonneg v.y, mul_self_nonneg v.z]
  have hy : v.y = 0 := by
    by_contra hc
    have := mul_self_pos.mpr hc
    nlinarith [mul_self_nonneg v.x, mul_self_nonneg v.z]
  have hz : v.z = 0 := by
    by_contra hc
    have := mul_self_pos.mpr hc
    nlinarith [mul_self_nonneg v.x, mul_self_nonneg v.y]
  cases v
  simp_all

theorem dotProduct_self_pos (v : Vector3D F) (h : v ≠ ⟨0, 0, 0⟩) : 0 < dotProduct v v :=
  lt_of_le_of_ne (dotProduct_self_nonneg v) (fun h0 => h (dotProduct_self_eq_zero v h0.symm))

/-- The squared distance from the ray point `origin + t * direction` to the
centre of the sphere, minus the squared radius, is the quadratic
`k1 * t ^ 2 + k2 * t + k3`. -/
theorem ray_quadratic (origin direction : Vector3D F) (sphere : SphereObject F) (t : F) :
    dotProduct (vecSubtract (vecAdd origin (vecMultiply t direction)) sphere.center)
        (vecSubtract (vecAdd origin (vecMultiply t direction)) sphere.center)
      - sphere.radius * sphere.radius
    = rayK1 direction * t * t + rayK2 origin direction sphere * t + rayK3 origin sphere := by
  simp only [dotProduct, vecSubtract, vecAdd, vecMultiply, rayK1, rayK2, rayK3]
  ring

theorem intersectRaySphere_of_nonneg (m : MathFns F) (origin direction : Vector3D F)
    (sphere : SphereObject F) (hdisc : 0 ≤ rayDiscriminant origin direction sphere) :
    intersectRaySphere m origin direction sphere =
      ((-rayK2 origin direction sphere + m.sqrt (rayDiscriminant origin direction sphere))
          / (2 * rayK1 direction),
       (-rayK2 origin direction sphere - m.sqrt (rayDiscriminant origin direction sphere))
          / (2 * rayK1 direction)) := by
  unfold intersectRaySphere
  simp only [not_lt.mpr hdisc, if_false]

theorem intersectRaySphere_of_neg (m : MathFns F) (origin direction : Vector3D F)
    (sphere : SphereObject F) (hdisc : rayDiscriminant origin direction sphere < 0) :
    intersectRaySphere m origin direction sphere = (FLT_MAX, FLT_MAX) := by
  unfold intersectRaySphere
  simp only [hdisc, if_true]

/-- With a non-negative discriminant the ray point at distance `t` lies on
the sphere exactly when `t` is one of the two values `intersectRaySphere`
returns. -/
theorem on_sphere_iff_root (m : MathFns F) (origin direction : Vector3D F)
    (sphere : SphereObject F) (hsqrt : IsSqrt m) (hD : direction ≠ ⟨0, 0, 0⟩)
    (hdisc : 0 ≤ rayDiscriminant origin direction sphere) (t : F) :
    dotProduct (vecSubtract (vecAdd origin (vecMultiply t direction)) sphere.center)
        (vecSubtract (vecAdd origin (vecMultiply t direction)) sphere.center)
      = sphere.radius * sphere.radius ↔
    IsRootOf (intersectRaySphere m origin direction sphere) t := by
  have hk1 : 0 < rayK1 direction := dotProduct_self_pos direction hD
  have h2k1 : (2 * rayK1 direction) ≠ 0 := by positivity
  unfold IsRootOf
  rw [intersectRaySphere_of_nonneg m origin direction sphere hdisc]
  obtain ⟨-, hs⟩ := hsqrt _ hdisc
  have hq := ray_quadratic origin direction sphere t
  generalize m.sqrt (rayDiscriminant origin direction sphere) = s at hs ⊢
  unfold rayDiscriminant at hs
  generalize dotProduct (vecSubtract (vecAdd origin (vecMultiply t direction)) sphere.center)
          (vecSubtract (vecAdd origin (vecMultiply t direction)) sphere.center) = d at hq ⊢
  generalize rayK1 direction = k1 at *
  generalize rayK2 origin direction sphere = k2 at *
  generalize rayK3 origin sphere = k3 at *
  generalize sphere.radius * sphere.radius = rr at *
  have key : 4 * k1 * (d - rr) = (2 * k1 * t + k2 - s) * (2 * k1 * t + k2 + s) := by
    rw [hq]; linear_combination hs
  show d = rr ↔ t = (-k2 + s) / (2 * k1) ∨ t = (-k2 - s) / (2 * k1)
  rw [eq_div_iff h2k1, eq_div_iff h2k1]
  constructor
  · intro hd
    rw [hd, sub_self, mul_zero] at key
    rcases mul_eq_zero.mp key.symm with h | h
    · left; linear_combination h
    · right; linear_combination h
  · intro h
    have hz : (2 * k1 * t + k2 - s) * (2 * k1 * t + k2 + s) = 0 := by
      rcases h with h | h
      · rw [show 2 * k1 * t + k2 - s = 0 by linear_combination h, zero_mul]
      · rw [show 2 * k1 * t + k2 + s = 0 by linear_combination h, mul_zero]
    rw [hz] at key
    have := (mul_eq_zero.mp key).resolve_left (by positivity)
    linear_combination this

/-- With a negative discriminant no ray point lies on the sphere. -/
theorem not_on_sphere_of_neg (origin direction : Vector3D F)
    (sphere : SphereObject F) (hdisc : rayDiscriminant origin direction sphere < 0) (t : F) :
    dotProduct (vecSubtract (vecAdd origin (vecMultiply t direction)) sphere.center)
        (vecSubtract (vecAdd origin (vecMultiply t direction)) sphere.center)
      ≠ sphere.radius * sphere.radius := by
  intro hd
  have hq := ray_quadratic origin direction sphere t
  rw [hd, sub_self] at hq
  unfold rayDiscriminant at hdisc
  generalize rayK1 direction = k1 at *
  generalize rayK2 origin direction sphere = k2 at *
  generalize rayK3 origin sphere = k3 at *
  have h2 : (2 * k1 * t + k2) * (2 * k1 * t + k2) = k2 * k2 - 4 * k1 * k3 := by
    linear_combination (-4 * k1) * hq
  linarith [mul_self_nonneg (2 * k1 * t + k2)]

/-- A hit returned by `ClosestIntersection` names a sphere of the list, and
the ray point at the returned distance lies on that sphere. -/
theorem ClosestIntersection_hit_on_sphere (m : MathFns F) (hsqrt : IsSqrt m)
    (spheres : List (SphereObject F)) (origin direction : Vector3D F) (mint_t max_t : F)
    (hD : direction ≠ ⟨0, 0, 0⟩) (t : F) (i : Nat)
    (hhit : ClosestIntersection m spheres origin direction mint_t max_t = (t, some i)) :
    ∃ S, spheres[i]? = some S ∧
      dotProduct (vecSubtract (hitPoint origin direction t) S.center)
          (vecSubtract (hitPoint origin direction t) S.center) = S.radius * S.radius := by
  rcases closestLoop_cases m origin direction mint_t max_t spheres 0 (FLT_MAX, none) with
    h | ⟨k, S, t1, hk, hres, hroot, -, hlt⟩
  · unfold ClosestIntersection at hhit
    rw [h] at hhit
    simp at hhit
  · unfold ClosestIntersection at hhit
    rw [hres] at hhit
    simp only [Prod.mk.injEq, Option.some.injEq, zero_add] at hhit
    obtain ⟨rfl, rfl⟩ := hhit
    refine ⟨S, hk, ?_⟩
    have hdisc : 0 ≤ rayDiscriminant origin direction S := by
      by_contra hneg
      rw [intersectRaySphere_of_neg m origin direction S (not_le.mp hneg)] at hroot
      rcases hroot with h | h <;> exact absurd hlt (by rw [h]; exact lt_irrefl _)
    exact (on_sphere_iff_root m origin direction S hsqrt hD hdisc t1).mpr hroot

theorem vecLength_ne_zero_of_pos (m : MathFns F) (hsqrt : IsSqrt m) (v : Vector3D F)
    (h : 0 < dotProduct v v) : vecLength m v ≠ 0 := by
  intro h0
  have := (hsqrt _ (le_of_lt h)).2
  unfold vecLength at h0
  rw [h0, mul_zero] at this
  exact absurd this (ne_of_lt h)

theorem vecLength_ne_zero (m : MathFns F) (hsqrt : IsSqrt m) (v : Vector3D F)
    (h : v ≠ ⟨0, 0, 0⟩) : vecLength m v ≠ 0 :=
  vecLength_ne_zero_of_pos m hsqrt v (dotProduct_self_pos v h)

theorem ne_zero_of_dotProduct_ne_zero (a b : Vector3D F) (h : dotProduct a b ≠ 0) :
    a ≠ ⟨0, 0, 0⟩ ∧ b ≠ ⟨0, 0, 0⟩ := by
  constructor
  · rintro rfl
    exact h (by simp [dotProduct])
  · rintro rfl
    exact h (by simp [dotProduct])

/-- A square root in the sense of `IsSqrt` is unique. -/
theorem IsSqrt.eq_of_mul_self (m : MathFns F) (hsqrt : IsSqrt m) (x y : F) (hy : 0 ≤ y)
    (hxy : y * y = x) : m.sqrt x = y := by
  have hx : 0 ≤ x := by rw [← hxy]; exact mul_self_nonneg y
  obtain ⟨hs0, hs⟩ := hsqrt x hx
  have h : (m.sqrt x - y) * (m.sqrt x + y) = 0 := by linear_combination hs - hxy
  rcases mul_eq_zero.mp h with h1 | h1
  · linear_combination h1
  · have : m.sqrt x = 0 := by linarith
    have : y = 0 := by linarith
    linarith

theorem rayK1_scale (k : F) (direction : Vector3D F) :
    rayK1 (vecMultiply k direction) = k * k * rayK1 direction := by
  simp only [rayK1, dotProduct, vecMultiply]; ring

theorem rayK2_scale (k : F) (origin direction : Vector3D F) (sphere : SphereObject F) :
    rayK2 origin (vecMultiply k direction) sphere = k * rayK2 origin direction sphere := by
  simp only [rayK2, dotProduct, vecMultiply, vecSubtract]; ring

theorem rayDiscriminant_scale (k : F) (origin direction : Vector3D F) (sphere : SphereObject F) :
    rayDiscriminant origin (vecMultiply k direction) sphere
      = k * k * rayDiscriminant origin direction sphere := by
  simp only [rayDiscriminant, rayK1_scale, rayK2_scale]; ring

theorem hitPoint_scale (k : F) (hk : k ≠ 0) (origin direction : Vector3D F) (t : F) :
    hitPoint origin (vecMultiply k direction) (t / k) = hitPoint origin direction t := by
  simp only [hitPoint, vecAdd, vecMultiply, Vector3D.mk.injEq]
  refine ⟨?_, ?_, ?_⟩ <;> field_simp <;> ring

/-- The real square root is a square root in the sense of `IsSqrt`. -/
theorem real_isSqrt : IsSqrt (MathFns.mk Real.sqrt Real.rpow) :=
  fun x hx => ⟨Real.sqrt_nonneg x, Real.mul_self_sqrt hx⟩

theorem real_sqrt_400 : Real.sqrt 400 = 20 := by
  rw [show (400 : ℝ) = 20 * 20 by norm_num]
  exact Real.sqrt_mul_self (by norm_num)

end VectorLemmas

section LightingLemmas

variable {F : Type} [LinearOrderedField F]

theorem vecLength_nonneg (m : MathFns F) (hsqrt : IsSqrt m) (v : Vector3D F) :
    0 ≤ vecLength m v :=
  (hsqrt _ (dotProduct_self_nonneg v)).1

theorem diffuseTerm_ge (m : MathFns F) (hsqrt : IsSqrt m) (normal light_direction : Vector3D F)
    (lightIntensity intensity : F) (hl : 0 ≤ lightIntensity) :
    intensity ≤ diffuseTerm m normal light_direction lightIntensity intensity := by
  unfold diffuseTerm
  simp only
  split_ifs with h
  · have : 0 ≤ lightIntensity * dotProduct normal light_direction /
        (vecLength m normal * vecLength m light_direction) :=
      div_nonneg (mul_nonneg hl (le_of_lt h))
        (mul_nonneg (vecLength_nonneg m hsqrt _) (vecLength_nonneg m hsqrt _))
    linarith
  · exact le_refl _

theorem specularTerm_ge (flags : RenderFlags) (m : MathFns F) (hsqrt : IsSqrt m)
    (hpow : IsPowNonneg m) (normal view_angle light_direction : Vector3D F)
    (specular lightIntensity intensity : F) (hl : 0 ≤ lightIntensity) :
    intensity ≤
      specularTerm flags m normal view_angle light_direction specular lightIntensity intensity := by
  unfold specularTerm
  simp only
  split_ifs with h1 h2
  · have hb := hpow _ specular (div_nonneg (le_of_lt h2)
      (mul_nonneg (vecLength_nonneg m hsqrt
        (vecSubtract (vecMultiply (2 * dotProduct normal light_direction) normal)
          light_direction)) (vecLength_nonneg m hsqrt view_angle)))
    have := mul_nonneg hl hb
    linarith
  · exact le_refl _
  · exact le_refl _

theorem lightingStep_ge (flags : RenderFlags) (m : MathFns F) (hsqrt : IsSqrt m)
    (hpow : IsPowNonneg m) (spheres : List (SphereObject F))
    (point normal view_angle : Vector3D F) (specular intensity : F) (l : Light F)
    (hl : 0 ≤ l.intensity) :
    intensity ≤ lightingStep flags m spheres point normal view_angle specular intensity l := by
  unfold lightingStep
  split_ifs
  · linarith
  · exact le_refl _
  · exact le_trans (diffuseTerm_ge m hsqrt _ _ _ _ hl) (specularTerm_ge flags m hsqrt hpow _ _ _ _ _ _ hl)

theorem lightingLoop_ge (flags : RenderFlags) (m : MathFns F) (hsqrt : IsSqrt m)
    (hpow : IsPowNonneg m) (spheres : List (SphereObject F))
    (point normal view_angle : Vector3D F) (specular intensity : F) (lights : List (Light F))
    (hl : ∀ l ∈ lights, 0 ≤ l.intensity) :
    intensity ≤ lightingLoop flags m spheres point normal view_angle specular intensity lights := by
  induction lights generalizing intensity with
  | nil => exact le_refl _
  | cons l rest ih =>
    unfold lightingLoop
    rw [List.foldl_cons]
    exact le_trans (lightingStep_ge flags m hsqrt hpow spheres point normal view_angle specular
        intensity l (hl l (List.mem_cons_self _ _)))
      (ih _ (fun l2 h2 => hl l2 (List.mem_cons_of_mem _ h2)))

/-- With no light of negative intensity the summed intensity is not negative. -/
theorem computeLightingIntensity_nonneg_of_lights (flags : RenderFlags) (m : MathFns F)
    (hsqrt : IsSqrt m) (hpow : IsPowNonneg m) (spheres : List (SphereObject F))
    (lights : List (Light F)) (point normal view_angle : Vector3D F) (specular : F)
    (hl : ∀ l ∈ lights, 0 ≤ l.intensity) :
    0 ≤ computeLightingIntensity flags m spheres lights point normal view_angle specular := by
  unfold computeLightingIntensity
  split_ifs
  · exact zero_le_one
  · exact lightingLoop_ge flags m hsqrt hpow spheres point normal view_angle specular 0 lights hl

theorem real_isPowNonneg : IsPowNonneg (MathFns.mk Real.sqrt Real.rpow) :=
  fun _ y hx => Real.rpow_nonneg hx y

theorem mainLights_nonneg : ∀ l ∈ (mainLights : List (Light F)), 0 ≤ l.intensity := by
  intro l hl
  simp only [mainLights, List.mem_cons, List.mem_singleton, List.not_mem_nil, or_false] at hl
  rcases hl with rfl | rfl | rfl <;> norm_num

theorem real_sqrt_4 : Real.sqrt 4 = 2 := by
  rw [show (4 : ℝ) = 2 * 2 by norm_num]
  exact Real.sqrt_mul_self (by norm_num)

/-- The primary ray along `(0, 0, 1)` hits the first sphere of `main` at
distance `3`. -/
theorem mainSpheres_centre_hit :
    traceRayHit (MathFns.mk Real.sqrt Real.rpow) mainSpheres CAMERA_POSITION ⟨0, 0, 1⟩ 1 FLT_MAX
      = (3, some 0) := by
  rw [traceRayHit_eq]
  simp [ClosestIntersection, mainSpheres, closestLoop, closestStep, acceptsRoot,
    intersectRaySphere, rayDiscriminant, rayK1, rayK2, rayK3, dotProduct, vecSubtract,
    CAMERA_POSITION]
  norm_num [FLT_MAX]

theorem mainSpheres_radius_pos :
    ∀ s ∈ (mainSpheres : List (SphereObject F)), 0 < s.radius := by
  intro s hs
  simp only [mainSpheres, List.mem_cons, List.mem_singleton, List.not_mem_nil, or_false] at hs
  rcases hs with rfl | rfl | rfl | rfl <;> norm_num

theorem mainLights_direction_ne_zero :
    ∀ l ∈ (mainLights : List (Light ℝ)), l.type ≠ LightType.Ambient →
      lightDirection l (hitPoint CAMERA_POSITION ⟨0, 0, 1⟩ 3) ≠ ⟨0, 0, 0⟩ := by
  intro l hl
  simp only [mainLights, List.mem_cons, List.mem_singleton, List.not_mem_nil, or_false] at hl
  rcases hl with rfl | rfl | rfl <;>
    simp [lightDirection, hitPoint, vecSubtract, vecAdd, vecMultiply, CAMERA_POSITION]

theorem shadowTMax_le (l : Light F) : shadowTMax l ≤ FLT_MAX := by
  unfold shadowTMax FLT_MAX
  split_ifs
  · norm_num
  · exact le_refl _

/-- The shadow query does not depend on the order of the spheres. -/
theorem inShadow_perm (m : MathFns F) (spheres spheres2 : List (SphereObject F))
    (hperm : spheres.Perm spheres2) (point : Vector3D F) (l : Light F) :
    inShadow m spheres point l = inShadow m spheres2 point l := by
  unfold inShadow
  rw [Bool.eq_iff_iff, ClosestIntersection_isSome_iff _ _ _ _ _ _ (shadowTMax_le l),
    ClosestIntersection_isSome_iff _ _ _ _ _ _ (shadowTMax_le l)]
  constructor
  · rintro ⟨s, hs, h⟩
    exact ⟨s, hperm.mem_iff.mp hs, h⟩
  · rintro ⟨s, hs, h⟩
    exact ⟨s, hperm.mem_iff.mpr hs, h⟩

theorem lightingStep_perm_spheres (flags : RenderFlags) (m : MathFns F)
    (spheres spheres2 : List (SphereObject F)) (hperm : spheres.Perm spheres2)
    (point normal view_angle : Vector3D F) (specular intensity : F) (l : Light F) :
    lightingStep flags m spheres point normal view_angle specular intensity l
      = lightingStep flags m spheres2 point normal view_angle specular intensity l := by
  unfold lightingStep
  rw [inShadow_perm m spheres spheres2 hperm]

/-- The loop body adds to the running intensity an amount that does not
depend on the running intensity. -/
theorem lightingStep_add (flags : RenderFlags) (m : MathFns F)
    (spheres : List (SphereObject F))
    (point normal view_angle : Vector3D F) (specular intensity : F) (l : Light F) :
    lightingStep flags m spheres point normal view_angle specular intensity l
      = intensity + lightingStep flags m spheres point normal view_angle specular 0 l := by
  unfold lightingStep specularTerm diffuseTerm
  simp only
  split_ifs <;> ring

theorem lightingStep_comm (flags : RenderFlags) (m : MathFns F)
    (spheres : List (SphereObject F))
    (point normal view_angle : Vector3D F) (specular intensity : F) (l1 l2 : Light F) :
    lightingStep flags m spheres point normal view_angle specular
        (lightingStep flags m spheres point normal view_angle specular intensity l1) l2
      = lightingStep flags m spheres point normal view_angle specular
        (lightingStep flags m spheres point normal view_angle specular intensity l2) l1 := by
  have h1 := lightingStep_add flags m spheres point normal view_angle specular
    (lightingStep flags m spheres point normal view_angle specular intensity l1) l2
  have h2 := lightingStep_add flags m spheres point normal view_angle specular
    (lightingStep flags m spheres point normal view_angle specular intensity l2) l1
  have h3 := lightingStep_add flags m spheres point normal view_angle specular intensity l1
  have h4 := lightingStep_add flags m spheres point normal view_angle specular intensity l2
  rw [h1, h2, h3, h4]
  ring


/-- The Cauchy-Schwarz inequality for `dotProduct`. -/
theorem dotProduct_sq_le (a b : Vector3D F) :
    dotProduct a b * dotProduct a b ≤ dotProduct a a * dotProduct b b := by
  unfold dotProduct
  nlinarith [mul_self_nonneg (a.x * b.y - a.y * b.x), mul_self_nonneg (a.y * b.z - a.z * b.y),
    mul_self_nonneg (a.z * b.x - a.x * b.z)]

/-- A dot product is at most the product of the lengths. -/
theorem dotProduct_le_mul_length (m : MathFns F) (hsqrt : IsSqrt m) (a b : Vector3D F) :
    dotProduct a b ≤ vecLength m a * vecLength m b := by
  obtain ⟨ha0, ha⟩ := hsqrt _ (dotProduct_self_nonneg a)
  obtain ⟨hb0, hb⟩ := hsqrt _ (dotProduct_self_nonneg b)
  have hcs := dotProduct_sq_le a b
  unfold vecLength
  by_contra hc
  have hlt := not_le.mp hc
  have hprod : 0 ≤ m.sqrt (dotProduct a a) * m.sqrt (dotProduct b b) := mul_nonneg ha0 hb0
  have hsq : (m.sqrt (dotProduct a a) * m.sqrt (dotProduct b b))
      * (m.sqrt (dotProduct a a) * m.sqrt (dotProduct b b))
      = dotProduct a a * dotProduct b b := by
    calc (m.sqrt (dotProduct a a) * m.sqrt (dotProduct b b))
          * (m.sqrt (dotProduct a a) * m.sqrt (dotProduct b b))
        = (m.sqrt (dotProduct a a) * m.sqrt (dotProduct a a))
          * (m.sqrt (dotProduct b b) * m.sqrt (dotProduct b b)) := by ring
      _ = dotProduct a a * dotProduct b b := by rw [ha, hb]
  have : (m.sqrt (dotProduct a a) * m.sqrt (dotProduct b b))
      * (m.sqrt (dotProduct a a) * m.sqrt (dotProduct b b))
      < dotProduct a b * dotProduct a b := mul_lt_mul'' hlt hlt hprod hprod
  linarith

/-- The diffuse update adds at most the intensity of the light. -/
theorem diffuseTerm_le (m : MathFns F) (hsqrt : IsSqrt m) (normal light_direction : Vector3D F)
    (lightIntensity intensity : F) (hl : 0 ≤ lightIntensity) :
    diffuseTerm m normal light_direction lightIntensity intensity
      ≤ intensity + lightIntensity := by
  unfold diffuseTerm
  simp only
  split_ifs with h
  · have hle := dotProduct_le_mul_length m hsqrt normal light_direction
    have hpos : 0 < vecLength m normal * vecLength m light_direction := lt_of_lt_of_le h hle
    have : lightIntensity * dotProduct normal light_direction
        / (vecLength m normal * vecLength m light_direction) ≤ lightIntensity := by
      rw [div_le_iff₀ hpos]
      exact mul_le_mul_of_nonneg_left hle hl
    linarith
  · linarith

theorem lightingStep_le (flags : RenderFlags) (m : MathFns F) (hsqrt : IsSqrt m)
    (spheres : List (SphereObject F)) (point normal view_angle : Vector3D F)
    (specular intensity : F) (l : Light F)
    (hspec : flags.SPECULAR_LIGHTING_ENABLED = false) (hl : 0 ≤ l.intensity) :
    lightingStep flags m spheres point normal view_angle specular intensity l
      ≤ intensity + l.intensity := by
  have hs : ∀ x : F, specularTerm flags m normal view_angle (lightDirection l point) specular
      l.intensity x = x := by
    intro x
    unfold specularTerm
    rw [if_neg (by simp [hspec])]
  unfold lightingStep
  split_ifs
  · exact le_refl _
  · linarith
  · rw [hs]
    exact diffuseTerm_le m hsqrt _ _ _ _ hl

theorem lightingLoop_le (flags : RenderFlags) (m : MathFns F) (hsqrt : IsSqrt m)
    (spheres : List (SphereObject F)) (point normal view_angle : Vector3D F)
    (specular intensity : F) (lights : List (Light F))
    (hspec : flags.SPECULAR_LIGHTING_ENABLED = false) (hl : ∀ l ∈ lights, 0 ≤ l.intensity) :
    lightingLoop flags m spheres point normal view_angle specular intensity lights
      ≤ intensity + totalLightIntensity lights := by
  induction lights generalizing intensity with
  | nil => simp [lightingLoop, totalLightIntensity]
  | cons l rest ih =>
    have h1 := lightingStep_le flags m hsqrt spheres point normal view_angle specular intensity
      l hspec (hl l (List.mem_cons_self _ _))
    have h2 := ih (lightingStep flags m spheres point normal view_angle specular intensity l)
      (fun l2 h2 => hl l2 (List.mem_cons_of_mem _ h2))
    have h3 : totalLightIntensity (l :: rest) = l.intensity + totalLightIntensity rest := by
      simp [totalLightIntensity]
    unfold lightingLoop at h2 ⊢
    rw [List.foldl_cons, h3]
    linarith

theorem mainLights_total : totalLightIntensity (mainLights : List (Light F)) = 1 := by
  simp [totalLightIntensity, mainLights]
  norm_num

end LightingLemmas

section ColorLemmas

variable {F : Type} [LinearOrderedField F] [FloorRing F]

theorem truncate_of_nonneg (x : F) (h : 0 ≤ x) : truncate x = Int.floor x := by
  unfold truncate; rw [if_pos h]

/-- The value of a channel scaled by a factor in `[0, 1]`: the floor of the
product. -/
theorem floatToUint8_scale_val (c : Fin 256) (f : F) (h0 : 0 ≤ f) (h1 : f ≤ 1) :
    ∃ v, floatToUint8 ((c.val : F) * f) = some v ∧
      (v.val : Int) = Int.floor ((c.val : F) * f) := by
  have hc0 : (0 : F) ≤ (c.val : F) := Nat.cast_nonneg _
  have hx0 : 0 ≤ (c.val : F) * f := mul_nonneg hc0 h0
  have hx1 : (c.val : F) * f ≤ (c.val : F) := mul_le_of_le_one_right hc0 h1
  have ht : truncate ((c.val : F) * f) = Int.floor ((c.val : F) * f) := truncate_of_nonneg _ hx0
  have hf0 : 0 ≤ Int.floor ((c.val : F) * f) := Int.floor_nonneg.mpr hx0
  have hf1 : Int.floor ((c.val : F) * f) ≤ (c.val : Int) := by
    have := Int.floor_le_floor hx1
    rwa [Int.floor_natCast] at this
  have hc : c.val < 256 := c.isLt
  have hrange : 0 ≤ truncate ((c.val : F) * f) ∧ truncate ((c.val : F) * f) < 256 := by
    rw [ht]; omega
  refine ⟨⟨(truncate ((c.val : F) * f)).toNat, by omega⟩, ?_, ?_⟩
  · unfold floatToUint8
    rw [dif_pos hrange]
  · show (((truncate ((c.val : F) * f)).toNat : Nat) : Int) = _
    rw [ht]; omega

/-- Scaling a channel by a factor in `[0, 1]` and converting back to `Uint8`
is defined and does not exceed the channel. -/
theorem floatToUint8_scale (c : Fin 256) (f : F) (h0 : 0 ≤ f) (h1 : f ≤ 1) :
    ∃ v, floatToUint8 ((c.val : F) * f) = some v ∧ v ≤ c := by
  obtain ⟨v, hv, hval⟩ := floatToUint8_scale_val c f h0 h1
  refine ⟨v, hv, ?_⟩
  have hx1 : (c.val : F) * f ≤ (c.val : F) := mul_le_of_le_one_right (Nat.cast_nonneg _) h1
  have hf1 : Int.floor ((c.val : F) * f) ≤ (c.val : Int) := by
    have := Int.floor_le_floor hx1
    rwa [Int.floor_natCast] at this
  rw [Fin.le_def]
  omega

/-- A channel scaled by the factor `1` converts back to itself. -/
theorem floatToUint8_mul_one (c : Fin 256) : floatToUint8 ((c.val : F) * 1) = some c := by
  have hc : c.val < 256 := c.isLt
  have ht : truncate ((c.val : F) * 1) = (c.val : Int) := by
    rw [mul_one, truncate_of_nonneg _ (Nat.cast_nonneg _), Int.floor_natCast]
  have hrange : 0 ≤ truncate ((c.val : F) * 1) ∧ truncate ((c.val : F) * 1) < 256 := by
    rw [ht]; omega
  unfold floatToUint8
  rw [dif_pos hrange]
  congr 1
  apply Fin.ext
  show (truncate ((c.val : F) * 1)).toNat = c.val
  rw [ht]; omega

/-- The conversion to `Uint8` has no defined result on values at most `-1`. -/
theorem floatToUint8_of_le_neg_one (x : F) (h : x ≤ -1) : floatToUint8 x = none := by
  have hneg : ¬ (0 ≤ x) := by
    intro h0
    have : (0 : F) ≤ -1 := le_trans h0 h
    norm_num at this
  have ht : truncate x = Int.ceil x := by
    unfold truncate; rw [if_neg hneg]
  have hc : Int.ceil x ≤ -1 := by
    apply Int.ceil_le.mpr
    simpa using h
  unfold floatToUint8
  rw [dif_neg]
  rw [ht]; omega

omit [FloorRing F] in
theorem clampIntensity_le_one (x : F) : clampIntensity x ≤ 1 := by
  unfold clampIntensity
  split_ifs with h
  · exact le_refl _
  · exact not_lt.mp h

omit [FloorRing F] in
theorem clampIntensity_nonneg (x : F) (h : 0 ≤ x) : 0 ≤ clampIntensity x := by
  unfold clampIntensity
  split_ifs
  · exact zero_le_one
  · exact h

theorem litColor_one (color : SDL_Color) : litColor color (1 : F) = some color := by
  have h1 : clampIntensity (1 : F) = 1 := by
    unfold clampIntensity; simp
  unfold litColor
  rw [h1, floatToUint8_mul_one, floatToUint8_mul_one, floatToUint8_mul_one]
  rfl

theorem litColor_of_nonneg (color : SDL_Color) (x : F) (h : 0 ≤ x) :
    ∃ col, litColor color x = some col ∧ col.r ≤ color.r ∧ col.g ≤ color.g ∧
      col.b ≤ color.b ∧ col.a = color.a := by
  obtain ⟨r, hr, hr'⟩ := floatToUint8_scale color.r (clampIntensity x)
    (clampIntensity_nonneg x h) (clampIntensity_le_one x)
  obtain ⟨g, hg, hg'⟩ := floatToUint8_scale color.g (clampIntensity x)
    (clampIntensity_nonneg x h) (clampIntensity_le_one x)
  obtain ⟨b, hb, hb'⟩ := floatToUint8_scale color.b (clampIntensity x)
    (clampIntensity_nonneg x h) (clampIntensity_le_one x)
  refine ⟨⟨r, g, b, color.a⟩, ?_, hr', hg', hb', rfl⟩
  unfold litColor
  rw [hr, hg, hb]
  rfl

/-- Partial illumination: an intensity in `[0, 1)` that scales the red channel
to at least `1` gives a red channel strictly between `0` and the base value. -/
theorem litColor_red_strict (color : SDL_Color) (x : F) (h0 : 0 ≤ x) (h1 : x < 1)
    (hlow : 1 ≤ (color.r.val : F) * x) :
    ∃ col, litColor color x = some col ∧ 0 < col.r.val ∧ col.r.val < color.r.val := by
  have hcl : clampIntensity x = x := by
    unfold clampIntensity
    rw [if_neg (not_lt.mpr (le_of_lt h1))]
  obtain ⟨r, hr, hrv⟩ := floatToUint8_scale_val color.r x h0 (le_of_lt h1)
  obtain ⟨g, hg, -⟩ := floatToUint8_scale_val color.g x h0 (le_of_lt h1)
  obtain ⟨b, hb, -⟩ := floatToUint8_scale_val color.b x h0 (le_of_lt h1)
  refine ⟨⟨r, g, b, color.a⟩, ?_, ?_, ?_⟩
  · unfold litColor
    rw [hcl, hr, hg, hb]
    rfl
  · have : (1 : Int) ≤ Int.floor ((color.r.val : F) * x) := Int.le_floor.mpr (by simpa using hlow)
    show 0 < r.val
    omega
  · have hcpos : (0 : F) < (color.r.val : F) := by
      by_contra hc
      have hc' : (color.r.val : F) ≤ 0 := not_lt.mp hc
      have : (color.r.val : F) * x ≤ 0 := mul_nonpos_of_nonpos_of_nonneg hc' h0
      linarith
    have hlt : (color.r.val : F) * x < ((color.r.val : Int) : F) := by
      rw [Int.cast_natCast]
      calc (color.r.val : F) * x < (color.r.val : F) * 1 := by
            exact mul_lt_mul_of_pos_left h1 hcpos
        _ = (color.r.val : F) := mul_one _
    have : Int.floor ((color.r.val : F) * x) < (color.r.val : Int) := Int.floor_lt.mpr hlt
    show r.val < color.r.val
    omega

end ColorLemmas

section ScenarioLemmas

variable {F : Type} [LinearOrderedField F]

/-- A sphere does not shadow a point of its own surface from a light whose
direction does not point into the sphere: the shadow query, for any window
starting at a non-negative distance, returns no sphere. -/
theorem no_self_shadow (m : MathFns F) (hsqrt : IsSqrt m) (S : SphereObject F)
    (point light_direction : Vector3D F) (mint_t max_t : F)
    (hL : light_direction ≠ ⟨0, 0, 0⟩) (hon : rayK3 point S = 0)
    (hout : 0 ≤ rayK2 point light_direction S) (hmin : 0 ≤ mint_t) :
    ClosestIntersection m [S] point light_direction mint_t max_t = (FLT_MAX, none) := by
  unfold ClosestIntersection
  apply closestLoop_eq_self
  intro s hs r hroot hwin
  rw [List.mem_singleton] at hs
  subst hs
  by_cases hdisc : 0 ≤ rayDiscriminant point light_direction s
  · exfalso
    have hq := ray_quadratic point light_direction s r
    rw [(on_sphere_iff_root m point light_direction s hsqrt hL hdisc r).mpr hroot, sub_self,
      hon, add_zero] at hq
    have hk1 : 0 < rayK1 light_direction := dotProduct_self_pos light_direction hL
    have hr : 0 < r := lt_of_le_of_lt hmin hwin.1
    have : 0 < rayK1 light_direction * r * r + rayK2 point light_direction s * r := by
      have h1 : 0 < rayK1 light_direction * r * r := by positivity
      have h2 : 0 ≤ rayK2 point light_direction s * r := mul_nonneg hout (le_of_lt hr)
      linarith
    linarith
  · rw [intersectRaySphere_of_neg m _ _ _ (not_le.mp hdisc)] at hroot
    rcases hroot with h | h <;> rw [h]

theorem diffuseTerm_of_pos (m : MathFns F) (normal light_direction : Vector3D F)
    (lightIntensity intensity : F) (h : 0 < dotProduct normal light_direction) :
    diffuseTerm m normal light_direction lightIntensity intensity
      = intensity + lightIntensity * dotProduct normal light_direction
          / (m.sqrt (dotProduct normal normal)
              * m.sqrt (dotProduct light_direction light_direction)) := by
  unfold diffuseTerm vecLength
  simp only [gt_iff_lt, h, if_true]

theorem specularTerm_of_pos (flags : RenderFlags) (m : MathFns F)
    (normal view_angle light_direction : Vector3D F) (specular lightIntensity intensity : F)
    (hflag : flags.SPECULAR_LIGHTING_ENABLED = true) (hspec : specular ≠ -1)
    (h : 0 < dotProduct
      (vecSubtract (vecMultiply (2 * dotProduct normal light_direction) normal) light_direction)
      view_angle) :
    specularTerm flags m normal view_angle light_direction specular lightIntensity intensity
      = intensity + lightIntensity *
          m.pow (dotProduct
              (vecSubtract (vecMultiply (2 * dotProduct normal light_direction) normal)
                light_direction) view_angle
            / (m.sqrt (dotProduct
                (vecSubtract (vecMultiply (2 * dotProduct normal light_direction) normal)
                  light_direction)
                (vecSubtract (vecMultiply (2 * dotProduct normal light_direction) normal)
                  light_direction))
              * m.sqrt (dotProduct view_angle view_angle))) specular := by
  unfold specularTerm vecLength
  simp only [gt_iff_lt, h, if_true, hflag, hspec, ne_eq, not_false_eq_true, and_self]

theorem sqrt10_mul_self : Real.sqrt 10 * Real.sqrt 10 = 10 :=
  Real.mul_self_sqrt (by norm_num)

theorem sqrt10_gt : (316 / 100 : ℝ) < Real.sqrt 10 := by
  apply Real.lt_sqrt_of_sq_lt
  norm_num

theorem sqrt10_lt : Real.sqrt 10 < (317 / 100 : ℝ) := by
  rw [Real.sqrt_lt' (by norm_num)]
  norm_num

theorem real_sqrt_40_9 : Real.sqrt (40 / 9) = 2 / 3 * Real.sqrt 10 := by
  apply IsSqrt.eq_of_mul_self _ real_isSqrt
  · have := Real.sqrt_nonneg 10
    positivity
  · linear_combination (4 / 9 : ℝ) * sqrt10_mul_self

theorem scenario_roots :
    intersectRaySphere (MathFns.mk Real.sqrt Real.rpow) CAMERA_POSITION ⟨0, 1 / 3, 1⟩
        scenarioSphere
      = (3 + 3 / 10 * Real.sqrt 10, 3 - 3 / 10 * Real.sqrt 10) := by
  have hd : rayDiscriminant CAMERA_POSITION (⟨0, 1 / 3, 1⟩ : Vector3D ℝ) scenarioSphere
      = 40 / 9 := by
    simp [rayDiscriminant, rayK1, rayK2, rayK3, dotProduct, vecSubtract, CAMERA_POSITION,
      scenarioSphere]
    norm_num
  rw [intersectRaySphere_of_nonneg _ _ _ _ (by rw [hd]; norm_num), hd]
  show ((-rayK2 CAMERA_POSITION ⟨0, 1 / 3, 1⟩ scenarioSphere + Real.sqrt (40 / 9))
      / (2 * rayK1 ⟨0, 1 / 3, 1⟩),
    (-rayK2 CAMERA_POSITION ⟨0, 1 / 3, 1⟩ scenarioSphere - Real.sqrt (40 / 9))
      / (2 * rayK1 ⟨0, 1 / 3, 1⟩)) = _
  rw [real_sqrt_40_9]
  simp only [rayK1, rayK2, dotProduct, vecSubtract, CAMERA_POSITION, scenarioSphere,
    Prod.mk.injEq]
  constructor <;> · field_simp; ring

theorem scenario_hit :
    traceRayHit (MathFns.mk Real.sqrt Real.rpow) [scenarioSphere] CAMERA_POSITION
        ⟨0, 1 / 3, 1⟩ 1 FLT_MAX
      = (3 - 3 / 10 * Real.sqrt 10, some 0) := by
  have h1 := sqrt10_gt
  have h2 := sqrt10_lt
  rw [traceRayHit_eq]
  simp only [ClosestIntersection, closestLoop, scenario_roots, closestStep, acceptsRoot]
  have hF : (3 : ℝ) + 3 / 10 * Real.sqrt 10 < FLT_MAX := by
    unfold FLT_MAX; linarith
  have c1 : (3 : ℝ) + 3 / 10 * Real.sqrt 10 < FLT_MAX ∧ 1 < (3 : ℝ) + 3 / 10 * Real.sqrt 10 ∧
      (3 : ℝ) + 3 / 10 * Real.sqrt 10 < FLT_MAX := ⟨hF, by linarith, hF⟩
  have c2 : (3 : ℝ) - 3 / 10 * Real.sqrt 10 < 3 + 3 / 10 * Real.sqrt 10 ∧
      1 < (3 : ℝ) - 3 / 10 * Real.sqrt 10 ∧ (3 : ℝ) - 3 / 10 * Real.sqrt 10 < FLT_MAX :=
    ⟨by linarith, by linarith, by unfold FLT_MAX; linarith⟩
  simp only [if_pos c1]
  rw [if_pos c2]
theorem scenario_point :
    hitPoint CAMERA_POSITION (⟨0, 1 / 3, 1⟩ : Vector3D ℝ) (3 - 3 / 10 * Real.sqrt 10)
      = ⟨0, 1 - Real.sqrt 10 / 10, 3 - 3 / 10 * Real.sqrt 10⟩ := by
  simp only [hitPoint, vecAdd, vecMultiply, CAMERA_POSITION, Vector3D.mk.injEq]
  refine ⟨by ring, by ring, by ring⟩

theorem scenario_normal :
    hitNormal (MathFns.mk Real.sqrt Real.rpow)
        (⟨0, 1 - Real.sqrt 10 / 10, 3 - 3 / 10 * Real.sqrt 10⟩ : Vector3D ℝ) scenarioSphere
      = ⟨0, -(Real.sqrt 10 / 10), -(3 / 10 * Real.sqrt 10)⟩ := by
  have hu := sqrt10_mul_self
  have hlen : vecLength (MathFns.mk Real.sqrt Real.rpow)
      (vecSubtract (⟨0, 1 - Real.sqrt 10 / 10, 3 - 3 / 10 * Real.sqrt 10⟩ : Vector3D ℝ)
        scenarioSphere.center) = 1 := by
    unfold vecLength
    have : dotProduct
        (vecSubtract (⟨0, 1 - Real.sqrt 10 / 10, 3 - 3 / 10 * Real.sqrt 10⟩ : Vector3D ℝ)
          scenarioSphere.center)
        (vecSubtract (⟨0, 1 - Real.sqrt 10 / 10, 3 - 3 / 10 * Real.sqrt 10⟩ : Vector3D ℝ)
          scenarioSphere.center) = 1 := by
      simp only [dotProduct, vecSubtract, scenarioSphere]
      linear_combination (1 / 10 : ℝ) * hu
    rw [this]
    exact Real.sqrt_one
  unfold hitNormal
  rw [hlen]
  simp only [vecMultiply, vecSubtract, scenarioSphere, Vector3D.mk.injEq]
  refine ⟨by ring, by ring, by ring⟩

theorem scenario_intensity :
    1 / 5 ≤ hitIntensity ⟨true, true, true⟩ (MathFns.mk Real.sqrt Real.rpow) [scenarioSphere]
      scenarioLights CAMERA_POSITION (⟨0, 1 / 3, 1⟩ : Vector3D ℝ) (3 - 3 / 10 * Real.sqrt 10)
      scenarioSphere ∧
    hitIntensity ⟨true, true, true⟩ (MathFns.mk Real.sqrt Real.rpow) [scenarioSphere]
      scenarioLights CAMERA_POSITION (⟨0, 1 / 3, 1⟩ : Vector3D ℝ) (3 - 3 / 10 * Real.sqrt 10)
      scenarioSphere < 1 := by
  have hu := sqrt10_mul_self
  have hu1 := sqrt10_gt
  have hu2 := sqrt10_lt
  unfold hitIntensity
  rw [scenario_point, scenario_normal]
  unfold computeLightingIntensity
  rw [if_neg (by simp)]
  simp only [lightingLoop, scenarioLights, List.foldl_cons, List.foldl_nil]
  generalize hu0 : Real.sqrt 10 = u at hu hu1 hu2 ⊢
  have hamb : ∀ (P N V : Vector3D ℝ) (sp : ℝ),
      lightingStep ⟨true, true, true⟩ (MathFns.mk Real.sqrt Real.rpow) [scenarioSphere]
        P N V sp 0 ⟨LightType.Ambient, ⟨0, 0, 0⟩, ⟨0, 0, 0⟩, 2 / 10, ⟨0, 0, 0, 0⟩⟩ = 2 / 10 := by
    intro P N V sp
    unfold lightingStep
    rw [if_pos rfl, zero_add]
  rw [hamb]
  constructor
  · have := lightingStep_ge ⟨true, true, true⟩ (MathFns.mk Real.sqrt Real.rpow) real_isSqrt
      real_isPowNonneg [scenarioSphere]
      (⟨0, 1 - u / 10, 3 - 3 / 10 * u⟩ : Vector3D ℝ) ⟨0, -(u / 10), -(3 / 10 * u)⟩
      (vecMultiply (-1) ⟨0, 1 / 3, 1⟩) scenarioSphere.specular (2 / 10)
      ⟨LightType.Point, ⟨2, 1, 0⟩, ⟨0, 0, 0⟩, 6 / 10, ⟨0, 0, 0, 0⟩⟩ (by norm_num)
    linarith
  · have hL : lightDirection
        (⟨LightType.Point, ⟨2, 1, 0⟩, ⟨0, 0, 0⟩, 6 / 10, ⟨0, 0, 0, 0⟩⟩ : Light ℝ)
        ⟨0, 1 - u / 10, 3 - 3 / 10 * u⟩ = ⟨2, u / 10, 3 / 10 * u - 3⟩ := by
      simp only [lightDirection, if_true, vecSubtract, Vector3D.mk.injEq]
      refine ⟨by ring, by ring, by ring⟩
    have hV : vecMultiply (-1) (⟨0, 1 / 3, 1⟩ : Vector3D ℝ) = ⟨0, -(1 / 3), -1⟩ := by
      simp only [vecMultiply, Vector3D.mk.injEq]
      refine ⟨by ring, by ring, by ring⟩
    have hnosh : ¬ ((⟨true, true, true⟩ : RenderFlags).CASTING_SHADOWS_ENABLED = true ∧
        inShadow (MathFns.mk Real.sqrt Real.rpow) [scenarioSphere]
          (⟨0, 1 - u / 10, 3 - 3 / 10 * u⟩ : Vector3D ℝ)
          ⟨LightType.Point, ⟨2, 1, 0⟩, ⟨0, 0, 0⟩, 6 / 10, ⟨0, 0, 0, 0⟩⟩ = true) := by
      unfold inShadow
      rw [hL, no_self_shadow _ real_isSqrt]
      · simp
      · simp
      · simp only [rayK3, dotProduct, vecSubtract, scenarioSphere]
        linear_combination (1 / 10 : ℝ) * hu
      · simp only [rayK2, dotProduct, vecSubtract, scenarioSphere]
        nlinarith
      · norm_num
    unfold lightingStep
    rw [if_neg (by simp), if_neg hnosh, hL, hV]
    have hNL : dotProduct (⟨0, -(u / 10), -(3 / 10 * u)⟩ : Vector3D ℝ)
        ⟨2, u / 10, 3 / 10 * u - 3⟩ = 9 / 10 * u - 1 := by
      simp only [dotProduct]
      linear_combination (-1 / 10 : ℝ) * hu
    have hNN : dotProduct (⟨0, -(u / 10), -(3 / 10 * u)⟩ : Vector3D ℝ)
        ⟨0, -(u / 10), -(3 / 10 * u)⟩ = 1 := by
      simp only [dotProduct]
      linear_combination (1 / 10 : ℝ) * hu
    have hLL : dotProduct (⟨2, u / 10, 3 / 10 * u - 3⟩ : Vector3D ℝ)
        ⟨2, u / 10, 3 / 10 * u - 3⟩ = 14 - 9 / 5 * u := by
      simp only [dotProduct]
      linear_combination (1 / 10 : ℝ) * hu
    have hRV : dotProduct
        (vecSubtract (vecMultiply (2 * (9 / 10 * u - 1))
          (⟨0, -(u / 10), -(3 / 10 * u)⟩ : Vector3D ℝ)) ⟨2, u / 10, 3 / 10 * u - 3⟩)
        ⟨0, -(1 / 3), -1⟩ = 3 - u / 3 := by
      simp only [dotProduct, vecSubtract, vecMultiply]
      linear_combination (6 / 10 : ℝ) * hu
    have hRR : dotProduct
        (vecSubtract (vecMultiply (2 * (9 / 10 * u - 1))
          (⟨0, -(u / 10), -(3 / 10 * u)⟩ : Vector3D ℝ)) ⟨2, u / 10, 3 / 10 * u - 3⟩)
        (vecSubtract (vecMultiply (2 * (9 / 10 * u - 1))
          (⟨0, -(u / 10), -(3 / 10 * u)⟩ : Vector3D ℝ)) ⟨2, u / 10, 3 / 10 * u - 3⟩)
        = 14 - 9 / 5 * u := by
      simp only [dotProduct, vecSubtract, vecMultiply]
      linear_combination (324 / 1000 * u * u - 36 / 100 * u + 1 / 10 : ℝ) * hu
    have hVV : dotProduct (⟨0, -(1 / 3), -1⟩ : Vector3D ℝ) ⟨0, -(1 / 3), -1⟩ = 10 / 9 := by
      simp only [dotProduct]
      norm_num
    rw [diffuseTerm_of_pos _ _ _ _ _ (by rw [hNL]; linarith),
      specularTerm_of_pos _ _ _ _ _ _ _ _ rfl (by simp [scenarioSphere]; norm_num)
        (by rw [hNL, hRV]; linarith)]
    rw [hNL, hNN, hLL, hRV, hRR, hVV]
    show 2 / 10 + 6 / 10 * (9 / 10 * u - 1) / (Real.sqrt 1 * Real.sqrt (14 - 9 / 5 * u))
      + 6 / 10 * Real.rpow ((3 - u / 3) / (Real.sqrt (14 - 9 / 5 * u) * Real.sqrt (10 / 9)))
          scenarioSphere.specular < 1
    rw [Real.sqrt_one, one_mul]
    have ha : (287 / 100 : ℝ) ≤ Real.sqrt (14 - 9 / 5 * u) := by
      apply Real.le_sqrt_of_sq_le
      nlinarith
    have hb : (1054 / 1000 : ℝ) ≤ Real.sqrt (10 / 9) := by
      apply Real.le_sqrt_of_sq_le
      norm_num
    generalize Real.sqrt (14 - 9 / 5 * u) = a at ha ⊢
    generalize Real.sqrt (10 / 9) = b at hb ⊢
    have ha0 : 0 < a := by linarith
    have hab : (302 / 100 : ℝ) ≤ a * b := by nlinarith
    have hab0 : 0 < a * b := by linarith
    have hc1 : (9 / 10 * u - 1) / a ≤ 65 / 100 := by
      rw [div_le_iff₀ ha0]
      nlinarith
    have hc2 : (3 - u / 3) / (a * b) ≤ 65 / 100 := by
      rw [div_le_iff₀ hab0]
      nlinarith
    have hc2pos : 0 < (3 - u / 3) / (a * b) := div_pos (by linarith) hab0
    have hpow : Real.rpow ((3 - u / 3) / (a * b)) scenarioSphere.specular
        ≤ (3 - u / 3) / (a * b) := by
      have := Real.rpow_le_rpow_of_exponent_ge hc2pos (by linarith)
        (show (1 : ℝ) ≤ scenarioSphere.specular by simp [scenarioSphere])
      rwa [Real.rpow_one] at this
    have hd : 6 / 10 * (9 / 10 * u - 1) / a = 6 / 10 * ((9 / 10 * u - 1) / a) := by ring
    rw [hd]
    linarith

end ScenarioLemmas

section ExactLemmas

variable {F : Type} [LinearOrderedField F]

/-- Every natural number below `2 ^ 24` is a `float` value. -/
theorem isBinary32_natCast (n : Nat) (h : n < 2 ^ 24) : IsBinary32 (n : F) :=
  ⟨n, 0, by rw [abs_of_nonneg (Int.natCast_nonneg n)]; exact_mod_cast h, by norm_num,
    by norm_num, by simp⟩

theorem isBinary32_neg (x : F) (h : IsBinary32 x) : IsBinary32 (-x) := by
  obtain ⟨mant, e, h1, h2, h3, h4⟩ := h
  exact ⟨-mant, e, by rwa [abs_neg], h2, h3, by rw [h4]; push_cast; ring⟩

theorem isBinary32_zero : IsBinary32 (0 : F) := by
  simpa using isBinary32_natCast (F := F) 0 (by norm_num)

theorem isBinary32_one : IsBinary32 (1 : F) := by
  simpa using isBinary32_natCast (F := F) 1 (by norm_num)

theorem isBinary32_ofNat (n : Nat) [n.AtLeastTwo] (h : n < 2 ^ 24) :
    IsBinary32 (OfNat.ofNat n : F) := by
  simpa using isBinary32_natCast (F := F) n h

theorem isBinary32_neg_ofNat (n : Nat) [n.AtLeastTwo] (h : n < 2 ^ 24) :
    IsBinary32 (-(OfNat.ofNat n : F)) :=
  isBinary32_neg _ (isBinary32_ofNat n h)

theorem real_sqrt_16 : Real.sqrt 16 = 4 := by
  rw [show (16 : ℝ) = 4 * 4 by norm_num]
  exact Real.sqrt_mul_self (by norm_num)

/-- The ray along `(0, 0, 1)` hits the sphere of centre `(0, 0, 3)` and radius
`1` at distance `2`. -/
theorem exactScene_hit (c : SDL_Color) (sp : ℝ) :
    traceRayHit (MathFns.mk Real.sqrt Real.rpow) [⟨⟨0, 0, 3⟩, 1, c, sp⟩] CAMERA_POSITION
      ⟨0, 0, 1⟩ 1 FLT_MAX = (2, some 0) := by
  rw [traceRayHit_eq]
  simp [ClosestIntersection, closestLoop, closestStep, acceptsRoot,
    intersectRaySphere, rayDiscriminant, rayK1, rayK2, rayK3, dotProduct, vecSubtract,
    CAMERA_POSITION]
  norm_num [FLT_MAX, real_sqrt_4]

set_option maxHeartbeats 2000000 in
/-- On the sphere of centre `(0, 0, 3)` and radius `1`, with an ambient light
and a point light at the origin and all flags enabled, every operation of the
trace of the ray along `(0, 0, 1)` has a small integer result. -/
theorem exactScene_ops :
    ∀ x ∈ traceRayOps ⟨true, true, true⟩ (MathFns.mk Real.sqrt Real.rpow)
      [⟨⟨0, 0, 3⟩, 1, ⟨255, 0, 0, 255⟩, 500⟩]
      [⟨LightType.Ambient, ⟨0, 0, 0⟩, ⟨0, 0, 0⟩, 1 / 4, ⟨0, 0, 0, 0⟩⟩,
        ⟨LightType.Point, ⟨0, 0, 0⟩, ⟨0, 0, 0⟩, 1 / 2, ⟨0, 0, 0, 0⟩⟩]
      CAMERA_POSITION ⟨0, 0, 1⟩ 1 FLT_MAX, IsBinary32 x := by
  unfold traceRayOps
  rw [exactScene_hit]
  norm_num [scanOps, intersectRaySphereOps, intersectRaySphere, computeLightingIntensityOps,
    lightingLoopOps, lightingStepOps, vecLengthOps, dotProductOps, vecSubtractOps, vecAddOps,
    vecMultiplyOps, vecLength, hitPoint, hitNormal, lightDirection, rayDiscriminant, rayK1,
    rayK2, rayK3, dotProduct, vecSubtract, vecAdd, vecMultiply, CAMERA_POSITION,
    real_sqrt_4, real_sqrt_16, (by decide : ¬ LightType.Point = LightType.Ambient)]
  simp only [isBinary32_zero, isBinary32_one, true_and, and_true]
  repeat' apply And.intro
  all_goals first
    | exact isBinary32_ofNat _ (by norm_num)
    | exact isBinary32_neg_ofNat _ (by norm_num)
    | exact isBinary32_neg _ isBinary32_one

set_option maxHeartbeats 2000000 in
/-- For the sphere of centre `(0, 0, 3)` and radius `1`, the direction
`(0, 0, 1)` and `k = 2`, every operation compared by the scaling law has a
small integer result. -/
theorem exactScale_ops :
    ∀ x ∈ scaleOps (MathFns.mk Real.sqrt Real.rpow) CAMERA_POSITION ⟨0, 0, 1⟩
      ⟨⟨0, 0, 3⟩, 1, ⟨255, 0, 0, 255⟩, 500⟩ 2, IsBinary32 x := by
  unfold scaleOps
  norm_num [intersectRaySphereOps, intersectRaySphere, dotProductOps, vecSubtractOps, vecAddOps,
    vecMultiplyOps, rayDiscriminant, rayK1, rayK2, rayK3, dotProduct, vecSubtract, vecAdd,
    vecMultiply, CAMERA_POSITION, real_sqrt_4, real_sqrt_16]
  simp only [isBinary32_zero, isBinary32_one, true_and, and_true]
  repeat' apply And.intro
  all_goals first
    | exact isBinary32_ofNat _ (by norm_num)
    | exact isBinary32_neg_ofNat _ (by norm_num)

end ExactLemmas

section Claims

variable {F : Type} [LinearOrderedField F]

/-- C1. For every sphere list, ray and window with `max_t ≤ FLT_MAX` (the
direction is not even required to be non-zero), `ClosestIntersection` returns
a sphere exactly when some sphere of the list has a root of
`intersectRaySphere` strictly inside `(min_t, max_t)`; and when it returns the
sphere with index `i`, the returned distance is a root of that sphere, lies
strictly inside the window, and is at most every root of every sphere of the
list that lies strictly inside the window. -/
theorem ClosestIntersection_smallest_root (m : MathFns F) (spheres : List (SphereObject F))
    (origin direction : Vector3D F) (mint_t max_t : F) (hmax : max_t ≤ FLT_MAX) :
    ((ClosestIntersection m spheres origin direction mint_t max_t).2.isSome = true ↔
      ∃ s ∈ spheres, ∃ t, IsRootOf (intersectRaySphere m origin direction s) t ∧
        InWindow mint_t max_t t) ∧
    ∀ i, (ClosestIntersection m spheres origin direction mint_t max_t).2 = some i →
      ∃ s, spheres[i]? = some s ∧
        IsRootOf (intersectRaySphere m origin direction s)
          (ClosestIntersection m spheres origin direction mint_t max_t).1 ∧
        InWindow mint_t max_t (ClosestIntersection m spheres origin direction mint_t max_t).1 ∧
        ∀ s2 ∈ spheres, ∀ t, IsRootOf (intersectRaySphere m origin direction s2) t →
          InWindow mint_t max_t t →
          (ClosestIntersection m spheres origin direction mint_t max_t).1 ≤ t := by
  have hcases := closestLoop_cases m origin direction mint_t max_t spheres 0 (FLT_MAX, none)
  have hle := closestLoop_le_root m origin direction mint_t max_t spheres 0 (FLT_MAX, none)
  unfold ClosestIntersection
  refine ⟨⟨?_, ?_⟩, ?_⟩
  · intro hsome
    rcases hcases with h | ⟨k, s, t, hk, hres, hroot, hwin, -⟩
    · rw [h] at hsome; simp at hsome
    · exact ⟨s, List.getElem?_mem hk, t, hroot, hwin⟩
  · rintro ⟨s, hs, t, hroot, hwin⟩
    rcases hcases with h | ⟨k, s1, t1, -, hres, -, -, -⟩
    · have h1 := hle s hs t hroot hwin
      rw [h] at h1
      exact absurd (lt_of_lt_of_le hwin.2 hmax) (not_lt.mpr h1)
    · rw [hres]; rfl
  · intro i hi
    rcases hcases with h | ⟨k, s, t, hk, hres, hroot, hwin, -⟩
    · rw [h] at hi; simp at hi
    · rw [hres] at hi ⊢
      simp only [Option.some.injEq, zero_add] at hi
      subst hi
      refine ⟨s, hk, hroot, hwin, ?_⟩
      intro s2 hs2 t2 hroot2 hwin2
      have := hle s2 hs2 t2 hroot2 hwin2
      rwa [hres] at this

/-- The hypothesis of C1 holds, and C1 applies, for the scene of `main` and
the primary ray through the centre of the canvas. -/
theorem ClosestIntersection_smallest_root_witness :
    (FLT_MAX : ℝ) ≤ FLT_MAX ∧
    ((ClosestIntersection (MathFns.mk Real.sqrt Real.rpow) mainSpheres CAMERA_POSITION
        ⟨0, 0, 1⟩ 1 FLT_MAX).2.isSome = true ↔
      ∃ s ∈ (mainSpheres : List (SphereObject ℝ)), ∃ t,
        IsRootOf (intersectRaySphere (MathFns.mk Real.sqrt Real.rpow) CAMERA_POSITION
          ⟨0, 0, 1⟩ s) t ∧ InWindow 1 FLT_MAX t) :=
  ⟨le_refl _, (ClosestIntersection_smallest_root (MathFns.mk Real.sqrt Real.rpow) mainSpheres
    CAMERA_POSITION ⟨0, 0, 1⟩ 1 FLT_MAX (le_refl _)).1⟩

/-- C2. For every scene, every setting of the flags and every ray and window:
if no sphere has a root of `intersectRaySphere` strictly inside
`(min_t, max_t)`, or if every sphere has a negative discriminant, then
`traceRay` returns exactly `BACKGROUND_COLOR`. -/
theorem traceRay_miss_background [FloorRing F] (flags : RenderFlags) (m : MathFns F)
    (spheres : List (SphereObject F)) (lights : List (Light F))
    (origin direction : Vector3D F) (mint_t max_t : F)
    (hmiss : (∀ s ∈ spheres, ∀ t, IsRootOf (intersectRaySphere m origin direction s) t →
        ¬ InWindow mint_t max_t t) ∨
      (∀ s ∈ spheres, rayDiscriminant origin direction s < 0)) :
    traceRay flags m spheres lights origin direction mint_t max_t = some BACKGROUND_COLOR := by
  have hci : ClosestIntersection m spheres origin direction mint_t max_t = (FLT_MAX, none) := by
    unfold ClosestIntersection
    apply closestLoop_eq_self
    intro s hs t hroot hwin
    rcases hmiss with h | h
    · exact absurd hwin (h s hs t hroot)
    · have hd := h s hs
      unfold IsRootOf intersectRaySphere at hroot
      simp only [hd, if_true] at hroot
      rcases hroot with rfl | rfl <;> exact le_refl _
  unfold traceRay
  rw [traceRayHit_eq, hci]

/-- The hypothesis of C2 holds, and C2 applies, for the single red sphere of
the end-to-end scenario with all flags enabled and the ray along `(1, 0, 1)`. -/
theorem traceRay_miss_background_witness :
    (∀ s ∈ ([⟨⟨0, 1, 3⟩, 1, ⟨255, 0, 0, 255⟩, 500⟩] : List (SphereObject ℝ)),
      rayDiscriminant CAMERA_POSITION ⟨1, 0, 1⟩ s < 0) ∧
    traceRay ⟨true, true, true⟩ (MathFns.mk Real.sqrt Real.rpow)
      [⟨⟨0, 1, 3⟩, 1, ⟨255, 0, 0, 255⟩, 500⟩] mainLights CAMERA_POSITION ⟨1, 0, 1⟩ 1 FLT_MAX
      = some BACKGROUND_COLOR :=
  ⟨by simp [rayDiscriminant, rayK1, rayK2, rayK3, dotProduct, vecSubtract, CAMERA_POSITION]
      norm_num,
    traceRay_miss_background ⟨true, true, true⟩ (MathFns.mk Real.sqrt Real.rpow)
      [⟨⟨0, 1, 3⟩, 1, ⟨255, 0, 0, 255⟩, 500⟩] mainLights CAMERA_POSITION ⟨1, 0, 1⟩ 1 FLT_MAX
      (Or.inr (by
        simp [rayDiscriminant, rayK1, rayK2, rayK3, dotProduct, vecSubtract, CAMERA_POSITION]
        norm_num))⟩

/-- C3. With lighting and shadows enabled, for a point or directional light
`L` at any position of the light list (`pre ++ L :: post`): if the shadow
query for `L` (`ClosestIntersection` from the shading point along `L`'s light
direction with window `(0.001, 1)` for a point light and `(0.001, FLT_MAX)`
for a directional light) returns a sphere, `computeLightingIntensity` returns
what it returns for the list with `L` removed; if the query returns no sphere,
the loop body for `L` adds `L`'s diffuse and specular terms exactly as the body
run with shadows disabled does. -/
theorem computeLightingIntensity_shadow (flags : RenderFlags) (m : MathFns F)
    (spheres : List (SphereObject F)) (pre post : List (Light F)) (L : Light F)
    (point normal view_angle : Vector3D F) (specular : F)
    (hlit : flags.LIGHTING_ENABLED = true) (hshadows : flags.CASTING_SHADOWS_ENABLED = true)
    (hL : L.type ≠ LightType.Ambient) :
    ((ClosestIntersection m spheres point (lightDirection L point) (1 / 1000)
        (shadowTMax L)).2.isSome = true →
      computeLightingIntensity flags m spheres (pre ++ L :: post) point normal view_angle specular
        = computeLightingIntensity flags m spheres (pre ++ post) point normal view_angle
            specular) ∧
    ((ClosestIntersection m spheres point (lightDirection L point) (1 / 1000)
        (shadowTMax L)).2.isSome = false →
      computeLightingIntensity flags m spheres (pre ++ L :: post) point normal view_angle specular
        = lightingLoop flags m spheres point normal view_angle specular
            (lightingStep ⟨flags.LIGHTING_ENABLED, flags.SPECULAR_LIGHTING_ENABLED, false⟩ m
              spheres point normal view_angle specular
              (lightingLoop flags m spheres point normal view_angle specular 0 pre) L)
            post) := by
  have hq' : ∀ b : Bool,
      (ClosestIntersection m spheres point (lightDirection L point) (1 / 1000)
        (shadowTMax L)).2.isSome = b → inShadow m spheres point L = b := fun _ h => h
  constructor
  · intro hq
    simp only [computeLightingIntensity, hlit, lightingLoop, List.foldl_append, List.foldl_cons]
    congr 1
    unfold lightingStep
    rw [if_neg hL, if_pos ⟨hshadows, hq' _ hq⟩]
  · intro hq
    simp only [computeLightingIntensity, hlit, lightingLoop, List.foldl_append, List.foldl_cons]
    unfold lightingStep
    have hno : ¬ (flags.CASTING_SHADOWS_ENABLED = true ∧ inShadow m spheres point L = true) := by
      rw [hq' _ hq]; simp
    rw [if_neg hL, if_neg hL, if_neg hno, if_neg (by simp)]
    rfl

/-- The hypotheses of C3 hold, and the shadowed half of C3 applies, for a
point light at `(0, 0, 10)` behind the sphere of centre `(0, 0, 5)` and radius
`1` seen from the shading point `(0, 0, 0)`: the light list with that light
gives the intensity of the list without it. -/
theorem computeLightingIntensity_shadow_witness :
    (⟨true, true, true⟩ : RenderFlags).LIGHTING_ENABLED = true ∧
    (⟨true, true, true⟩ : RenderFlags).CASTING_SHADOWS_ENABLED = true ∧
    (⟨LightType.Point, ⟨0, 0, 10⟩, ⟨0, 0, 0⟩, 6 / 10, ⟨0, 0, 0, 0⟩⟩ : Light ℝ).type
      ≠ LightType.Ambient ∧
    computeLightingIntensity ⟨true, true, true⟩ (MathFns.mk Real.sqrt Real.rpow)
        [⟨⟨0, 0, 5⟩, 1, ⟨255, 0, 0, 255⟩, 500⟩]
        ([⟨LightType.Ambient, ⟨0, 0, 0⟩, ⟨0, 0, 0⟩, 2 / 10, ⟨0, 0, 0, 0⟩⟩] ++
          ⟨LightType.Point, ⟨0, 0, 10⟩, ⟨0, 0, 0⟩, 6 / 10, ⟨0, 0, 0, 0⟩⟩ :: [])
        ⟨0, 0, 0⟩ ⟨0, 0, -1⟩ ⟨0, 0, -1⟩ 500
      = computeLightingIntensity ⟨true, true, true⟩ (MathFns.mk Real.sqrt Real.rpow)
        [⟨⟨0, 0, 5⟩, 1, ⟨255, 0, 0, 255⟩, 500⟩]
        ([⟨LightType.Ambient, ⟨0, 0, 0⟩, ⟨0, 0, 0⟩, 2 / 10, ⟨0, 0, 0, 0⟩⟩] ++ [])
        ⟨0, 0, 0⟩ ⟨0, 0, -1⟩ ⟨0, 0, -1⟩ 500 :=
  ⟨rfl, rfl, by simp,
    (computeLightingIntensity_shadow ⟨true, true, true⟩ (MathFns.mk Real.sqrt Real.rpow)
      [⟨⟨0, 0, 5⟩, 1, ⟨255, 0, 0, 255⟩, 500⟩]
      [⟨LightType.Ambient, ⟨0, 0, 0⟩, ⟨0, 0, 0⟩, 2 / 10, ⟨0, 0, 0, 0⟩⟩] []
      ⟨LightType.Point, ⟨0, 0, 10⟩, ⟨0, 0, 0⟩, 6 / 10, ⟨0, 0, 0, 0⟩⟩
      ⟨0, 0, 0⟩ ⟨0, 0, -1⟩ ⟨0, 0, -1⟩ 500 rfl rfl (by simp)).1 (by
        simp [ClosestIntersection, closestLoop, closestStep, acceptsRoot, intersectRaySphere,
          rayDiscriminant, rayK1, rayK2, rayK3, dotProduct, vecSubtract, lightDirection,
          shadowTMax]
        norm_num [real_sqrt_400, FLT_MAX])⟩

/-- C4. Over an ordered field with a square root (such as the reals), for
every origin, direction `D ≠ 0` and sphere: when the discriminant
`k2 ^ 2 - 4 * k1 * k3` is non-negative, `intersectRaySphere` returns
`t1 = (-k2 + sqrt disc) / (2 * k1)` and `t2 = (-k2 - sqrt disc) / (2 * k1)`, and
a `t` satisfies `|O + t * D - C| ^ 2 = r ^ 2` exactly when `t = t1` or `t = t2`;
when the discriminant is negative, both returned values are `FLT_MAX` and no
`t` satisfies that equation. -/
theorem intersectRaySphere_roots (m : MathFns F) (origin direction : Vector3D F)
    (sphere : SphereObject F)
    (hsqrt : IsSqrt m) (hD : direction ≠ ⟨0, 0, 0⟩) :
    (0 ≤ rayDiscriminant origin direction sphere →
      intersectRaySphere m origin direction sphere =
        ((-rayK2 origin direction sphere + m.sqrt (rayDiscriminant origin direction sphere))
            / (2 * rayK1 direction),
         (-rayK2 origin direction sphere - m.sqrt (rayDiscriminant origin direction sphere))
            / (2 * rayK1 direction)) ∧
      ∀ t : F,
        dotProduct (vecSubtract (vecAdd origin (vecMultiply t direction)) sphere.center)
            (vecSubtract (vecAdd origin (vecMultiply t direction)) sphere.center)
          = sphere.radius * sphere.radius ↔
        (t = (intersectRaySphere m origin direction sphere).1 ∨
          t = (intersectRaySphere m origin direction sphere).2)) ∧
    (rayDiscriminant origin direction sphere < 0 →
      intersectRaySphere m origin direction sphere = (FLT_MAX, FLT_MAX) ∧
      ∀ t : F,
        dotProduct (vecSubtract (vecAdd origin (vecMultiply t direction)) sphere.center)
            (vecSubtract (vecAdd origin (vecMultiply t direction)) sphere.center)
          ≠ sphere.radius * sphere.radius) := by
  constructor
  · intro hdisc
    refine ⟨intersectRaySphere_of_nonneg m origin direction sphere hdisc, fun t => ?_⟩
    exact on_sphere_iff_root m origin direction sphere hsqrt hD hdisc t
  · intro hdisc
    exact ⟨intersectRaySphere_of_neg m origin direction sphere hdisc,
      not_on_sphere_of_neg origin direction sphere hdisc⟩

/-- The hypotheses of C4 hold, and C4 applies, over the reals for the first
sphere of `main` and the primary ray along `(0, 1 / 3, 1)`, whose discriminant
is `40 / 9`. -/
theorem intersectRaySphere_roots_witness :
    IsSqrt (MathFns.mk Real.sqrt Real.rpow) ∧
    (⟨0, 1 / 3, 1⟩ : Vector3D ℝ) ≠ ⟨0, 0, 0⟩ ∧
    ∀ t : ℝ,
      dotProduct
          (vecSubtract (vecAdd CAMERA_POSITION (vecMultiply t ⟨0, 1 / 3, 1⟩))
            (⟨⟨0, 1, 3⟩, 1, ⟨255, 0, 0, 255⟩, 500⟩ : SphereObject ℝ).center)
          (vecSubtract (vecAdd CAMERA_POSITION (vecMultiply t ⟨0, 1 / 3, 1⟩))
            (⟨⟨0, 1, 3⟩, 1, ⟨255, 0, 0, 255⟩, 500⟩ : SphereObject ℝ).center)
        = (⟨⟨0, 1, 3⟩, 1, ⟨255, 0, 0, 255⟩, 500⟩ : SphereObject ℝ).radius
          * (⟨⟨0, 1, 3⟩, 1, ⟨255, 0, 0, 255⟩, 500⟩ : SphereObject ℝ).radius ↔
      (t = (intersectRaySphere (MathFns.mk Real.sqrt Real.rpow) CAMERA_POSITION ⟨0, 1 / 3, 1⟩
            ⟨⟨0, 1, 3⟩, 1, ⟨255, 0, 0, 255⟩, 500⟩).1 ∨
        t = (intersectRaySphere (MathFns.mk Real.sqrt Real.rpow) CAMERA_POSITION ⟨0, 1 / 3, 1⟩
            ⟨⟨0, 1, 3⟩, 1, ⟨255, 0, 0, 255⟩, 500⟩).2) :=
  ⟨real_isSqrt, by simp,
    ((intersectRaySphere_roots (MathFns.mk Real.sqrt Real.rpow) CAMERA_POSITION ⟨0, 1 / 3, 1⟩
      ⟨⟨0, 1, 3⟩, 1, ⟨255, 0, 0, 255⟩, 500⟩ real_isSqrt (by simp)).1 (by
        simp [rayDiscriminant, rayK1, rayK2, rayK3, dotProduct, vecSubtract, CAMERA_POSITION]
        norm_num)).2⟩

/-- C5. With the lighting flag disabled, for every scene, ray and window for
which `ClosestIntersection` returns the sphere with index `i`, that index is
valid and `traceRay` returns exactly the colour of that sphere, all four
channels, whatever the lights, the specular exponent and the other two flags
are. -/
theorem traceRay_unlit_color [FloorRing F] (flags : RenderFlags) (m : MathFns F)
    (spheres : List (SphereObject F)) (lights : List (Light F))
    (origin direction : Vector3D F) (mint_t max_t : F) (i : Nat)
    (hlit : flags.LIGHTING_ENABLED = false)
    (hhit : (ClosestIntersection m spheres origin direction mint_t max_t).2 = some i) :
    ∃ S, spheres[i]? = some S ∧
      traceRay flags m spheres lights origin direction mint_t max_t = some S.color := by
  rcases closestLoop_cases m origin direction mint_t max_t spheres 0 (FLT_MAX, none) with
    h | ⟨k, S, t, hk, hres, -, -, -⟩
  · unfold ClosestIntersection at hhit
    rw [h] at hhit; simp at hhit
  · have hci : ClosestIntersection m spheres origin direction mint_t max_t = (t, some k) := by
      unfold ClosestIntersection; rw [hres, zero_add]
    rw [hci] at hhit
    simp only [Option.some.injEq] at hhit
    subst hhit
    refine ⟨S, hk, ?_⟩
    unfold traceRay
    rw [traceRayHit_eq, hci]
    simp only [hk]
    unfold hitIntensity computeLightingIntensity
    rw [if_pos hlit]
    exact litColor_one S.color

/-- The hypotheses of C5 hold, and C5 applies, for the scene of `main` in
render mode 1 and the primary ray along `(0, 0, 1)`. -/
theorem traceRay_unlit_color_witness :
    (⟨false, false, false⟩ : RenderFlags).LIGHTING_ENABLED = false ∧
    (ClosestIntersection (MathFns.mk Real.sqrt Real.rpow) mainSpheres CAMERA_POSITION
      ⟨0, 0, 1⟩ 1 FLT_MAX).2 = some 0 ∧
    ∃ S, (mainSpheres : List (SphereObject ℝ))[0]? = some S ∧
      traceRay ⟨false, false, false⟩ (MathFns.mk Real.sqrt Real.rpow) mainSpheres mainLights
        CAMERA_POSITION ⟨0, 0, 1⟩ 1 FLT_MAX = some S.color :=
  ⟨rfl, by rw [← traceRayHit_eq, mainSpheres_centre_hit],
    traceRay_unlit_color ⟨false, false, false⟩ (MathFns.mk Real.sqrt Real.rpow) mainSpheres
      mainLights CAMERA_POSITION ⟨0, 0, 1⟩ 1 FLT_MAX 0 rfl
      (by rw [← traceRayHit_eq, mainSpheres_centre_hit])⟩

/-- C6, as amended. For every scene, every setting of the flags and every ray
for which `traceRay` hits the sphere `S` and the lighting intensity computed
for the hit is not negative, `traceRay` returns a colour each of whose `r`, `g`
and `b` channels is at most the corresponding channel of `S.color`, and whose
alpha channel equals that of `S.color`. -/
theorem traceRay_channels_le [FloorRing F] (flags : RenderFlags) (m : MathFns F)
    (spheres : List (SphereObject F)) (lights : List (Light F))
    (origin direction : Vector3D F) (mint_t max_t : F) (t : F) (i : Nat) (S : SphereObject F)
    (hhit : traceRayHit m spheres origin direction mint_t max_t = (t, some i))
    (hS : spheres[i]? = some S)
    (hnonneg : 0 ≤ hitIntensity flags m spheres lights origin direction t S) :
    ∃ col, traceRay flags m spheres lights origin direction mint_t max_t = some col ∧
      col.r ≤ S.color.r ∧ col.g ≤ S.color.g ∧ col.b ≤ S.color.b ∧ col.a = S.color.a := by
  unfold traceRay
  rw [hhit]
  simp only [hS]
  exact litColor_of_nonneg S.color _ hnonneg

/-- The hypotheses of the amended C6 hold, and it applies, for the scene of
`main` in render mode 4 and the primary ray along `(0, 0, 1)`. -/
theorem traceRay_channels_le_witness :
    traceRayHit (MathFns.mk Real.sqrt Real.rpow) mainSpheres CAMERA_POSITION ⟨0, 0, 1⟩ 1 FLT_MAX
      = (3, some 0) ∧
    (mainSpheres : List (SphereObject ℝ))[0]? = some ⟨⟨0, 1, 3⟩, 1, ⟨255, 0, 0, 255⟩, 500⟩ ∧
    0 ≤ hitIntensity ⟨true, true, true⟩ (MathFns.mk Real.sqrt Real.rpow) mainSpheres mainLights
      CAMERA_POSITION ⟨0, 0, 1⟩ 3 ⟨⟨0, 1, 3⟩, 1, ⟨255, 0, 0, 255⟩, 500⟩ ∧
    ∃ col, traceRay ⟨true, true, true⟩ (MathFns.mk Real.sqrt Real.rpow) mainSpheres mainLights
        CAMERA_POSITION ⟨0, 0, 1⟩ 1 FLT_MAX = some col ∧
      col.r ≤ 255 ∧ col.g ≤ 0 ∧ col.b ≤ 0 ∧ col.a = 255 :=
  ⟨mainSpheres_centre_hit, rfl,
    computeLightingIntensity_nonneg_of_lights _ _ real_isSqrt real_isPowNonneg _ _ _ _ _ _
      mainLights_nonneg,
    traceRay_channels_le ⟨true, true, true⟩ (MathFns.mk Real.sqrt Real.rpow) mainSpheres
      mainLights CAMERA_POSITION ⟨0, 0, 1⟩ 1 FLT_MAX 3 0 ⟨⟨0, 1, 3⟩, 1, ⟨255, 0, 0, 255⟩, 500⟩
      mainSpheres_centre_hit rfl
      (computeLightingIntensity_nonneg_of_lights _ _ real_isSqrt real_isPowNonneg _ _ _ _ _ _
        mainLights_nonneg)⟩

/-- C6 as stated fails: with lighting enabled and a single ambient light of
intensity `-1 / 2`, the ray along `(0, 0, 1)` hits the sphere of colour
`(100, 0, 0, 255)` at distance `2`, the red channel is computed as
`100 * (-1 / 2) = -50`, which has no `Uint8` value, and `traceRay` returns no
colour at all. -/
theorem traceRay_channels_le_counterexample :
    traceRayHit (MathFns.mk Real.sqrt Real.rpow)
        [⟨⟨0, 0, 3⟩, 1, ⟨100, 0, 0, 255⟩, -1⟩] CAMERA_POSITION ⟨0, 0, 1⟩ 1 FLT_MAX
      = (2, some 0) ∧
    traceRay ⟨true, false, false⟩ (MathFns.mk Real.sqrt Real.rpow)
        [⟨⟨0, 0, 3⟩, 1, ⟨100, 0, 0, 255⟩, -1⟩]
        [⟨LightType.Ambient, ⟨0, 0, 0⟩, ⟨0, 0, 0⟩, -1 / 2, ⟨0, 0, 0, 0⟩⟩]
        CAMERA_POSITION ⟨0, 0, 1⟩ 1 FLT_MAX
      = none := by
  have hhit : traceRayHit (MathFns.mk Real.sqrt Real.rpow)
        [⟨⟨0, 0, 3⟩, 1, ⟨100, 0, 0, 255⟩, -1⟩] CAMERA_POSITION ⟨0, 0, 1⟩ 1 FLT_MAX
      = (2, some 0) := by
    rw [traceRayHit_eq]
    simp [ClosestIntersection, closestLoop, closestStep, acceptsRoot,
      intersectRaySphere, rayDiscriminant, rayK1, rayK2, rayK3, dotProduct, vecSubtract,
      CAMERA_POSITION]
    norm_num [FLT_MAX, real_sqrt_4]
  refine ⟨hhit, ?_⟩
  unfold traceRay
  rw [hhit]
  have hr : floatToUint8 (((100 : Fin 256).val : ℝ) * clampIntensity (-1 / 2)) = none := by
    apply floatToUint8_of_le_neg_one
    change ((100 : ℕ) : ℝ) * clampIntensity (-1 / 2) ≤ -1
    unfold clampIntensity
    norm_num
  simp [hitIntensity, computeLightingIntensity, lightingLoop, lightingStep, litColor]
  intro r hr2
  rw [hr] at hr2
  simp at hr2

/-- C9. For every sphere list, ray and window, when `ClosestIntersection`
returns the distance `t` and the sphere with index `i`, every root inside the
window of every sphere with a lower index is strictly greater than `t`: among
the spheres attaining the smallest qualifying root the one with the lowest
index is returned.  In particular no sphere with a lower index equals the
returned sphere, so of two identical spheres at positions `i < j` the one at
`j` is never returned.  (`ClosestIntersection` is a function of its arguments,
so two runs on the same inputs return the same sphere.) -/
theorem ClosestIntersection_first_wins (m : MathFns F) (spheres : List (SphereObject F))
    (origin direction : Vector3D F) (mint_t max_t : F) (t : F) (i : Nat)
    (hres : ClosestIntersection m spheres origin direction mint_t max_t = (t, some i)) :
    (∀ j s, j < i → spheres[j]? = some s →
      ∀ r, IsRootOf (intersectRaySphere m origin direction s) r → InWindow mint_t max_t r →
        t < r) ∧
    (∀ j, j < i → spheres[j]? ≠ spheres[i]?) := by
  have hfirst : ∀ j s, j < i → spheres[j]? = some s →
      ∀ r, IsRootOf (intersectRaySphere m origin direction s) r → InWindow mint_t max_t r →
        t < r := by
    apply closestLoop_first m origin direction mint_t max_t spheres 0 (FLT_MAX, none) t i
    · intro n hn; simp at hn
    · unfold ClosestIntersection at hres
      rw [hres, zero_add]
  refine ⟨hfirst, ?_⟩
  intro j hj heq
  rcases closestLoop_cases m origin direction mint_t max_t spheres 0 (FLT_MAX, none) with
    h | ⟨k, S, t1, hk, h, hroot, hwin, -⟩
  · unfold ClosestIntersection at hres
    rw [h] at hres
    simp at hres
  · unfold ClosestIntersection at hres
    rw [h] at hres
    simp only [Prod.mk.injEq, Option.some.injEq, zero_add] at hres
    obtain ⟨rfl, rfl⟩ := hres
    rw [hk] at heq
    exact lt_irrefl _ (hfirst j S hj heq t1 hroot hwin)

/-- The hypothesis of C9 holds, and C9 applies, for a far sphere followed by
two identical near spheres: the ray along `(0, 0, 1)` hits both near spheres at
distance `2` and the first of them, index `1`, is returned. -/
theorem ClosestIntersection_first_wins_witness :
    ClosestIntersection (MathFns.mk Real.sqrt Real.rpow)
        [⟨⟨0, 0, 6⟩, 1, ⟨0, 255, 0, 255⟩, 500⟩, ⟨⟨0, 0, 3⟩, 1, ⟨255, 0, 0, 255⟩, 500⟩,
          ⟨⟨0, 0, 3⟩, 1, ⟨255, 0, 0, 255⟩, 500⟩]
        CAMERA_POSITION ⟨0, 0, 1⟩ 1 FLT_MAX = (2, some 1) ∧
    ∀ j s, j < 1 →
      ([⟨⟨0, 0, 6⟩, 1, ⟨0, 255, 0, 255⟩, 500⟩, ⟨⟨0, 0, 3⟩, 1, ⟨255, 0, 0, 255⟩, 500⟩,
          ⟨⟨0, 0, 3⟩, 1, ⟨255, 0, 0, 255⟩, 500⟩] : List (SphereObject ℝ))[j]? = some s →
      ∀ r, IsRootOf (intersectRaySphere (MathFns.mk Real.sqrt Real.rpow) CAMERA_POSITION
          ⟨0, 0, 1⟩ s) r → InWindow 1 FLT_MAX r → 2 < r :=
  have hres : ClosestIntersection (MathFns.mk Real.sqrt Real.rpow)
        [⟨⟨0, 0, 6⟩, 1, ⟨0, 255, 0, 255⟩, 500⟩, ⟨⟨0, 0, 3⟩, 1, ⟨255, 0, 0, 255⟩, 500⟩,
          ⟨⟨0, 0, 3⟩, 1, ⟨255, 0, 0, 255⟩, 500⟩]
        CAMERA_POSITION ⟨0, 0, 1⟩ 1 FLT_MAX = (2, some 1) := by
    simp [ClosestIntersection, closestLoop, closestStep, acceptsRoot,
      intersectRaySphere, rayDiscriminant, rayK1, rayK2, rayK3, dotProduct, vecSubtract,
      CAMERA_POSITION]
    norm_num [FLT_MAX, real_sqrt_4]
  ⟨hres, (ClosestIntersection_first_wins (MathFns.mk Real.sqrt Real.rpow) _ CAMERA_POSITION
    ⟨0, 0, 1⟩ 1 FLT_MAX 2 1 hres).1⟩

/-- C10. The end-to-end scenario over the reals: for the single sphere
`{center (0, 1, 3), radius 1, color (255, 0, 0, 255), specular 500}`, the
lights `[Ambient 0.2, Point 0.6 at (2, 1, 0)]` and all three flags enabled,
`traceRay` from the origin along `(0, 1 / 3, 1)` with the window
`(1, FLT_MAX)` hits the sphere and returns a colour whose red channel is
strictly greater than `0` and strictly less than `255`. -/
theorem traceRay_end_to_end :
    ∃ t col,
      traceRayHit (MathFns.mk Real.sqrt Real.rpow) [scenarioSphere] CAMERA_POSITION
        ⟨0, 1 / 3, 1⟩ 1 FLT_MAX = (t, some 0) ∧
      traceRay ⟨true, true, true⟩ (MathFns.mk Real.sqrt Real.rpow) [scenarioSphere]
        scenarioLights CAMERA_POSITION ⟨0, 1 / 3, 1⟩ 1 FLT_MAX = some col ∧
      0 < col.r.val ∧ col.r.val < 255 := by
  obtain ⟨hlo, hhi⟩ := scenario_intensity
  obtain ⟨col, hcol, hr0, hr1⟩ := litColor_red_strict (scenarioSphere (F := ℝ)).color _
    (le_trans (by norm_num) hlo) hhi (by
      show (1 : ℝ) ≤ ((255 : ℕ) : ℝ) * _
      push_cast
      linarith)
  refine ⟨_, col, scenario_hit, ?_, hr0, hr1⟩
  unfold traceRay
  rw [scenario_hit]
  exact hcol

/-- C11, as amended. Over an ordered field with a square root and a power
function that is non-negative on non-negative bases, for every scene whose
lights all have non-negative intensity, every shading point, normal, view
vector, specular exponent and setting of the flags: the intensity returned by
`computeLightingIntensity` is not negative, and the loop body never lowers the
running intensity (every term added, ambient, diffuse or specular, is
non-negative). -/
theorem computeLightingIntensity_never_negative (flags : RenderFlags) (m : MathFns F)
    (hsqrt : IsSqrt m) (hpow : IsPowNonneg m) (spheres : List (SphereObject F))
    (lights : List (Light F)) (point normal view_angle : Vector3D F) (specular : F)
    (hlights : ∀ l ∈ lights, 0 ≤ l.intensity) :
    0 ≤ computeLightingIntensity flags m spheres lights point normal view_angle specular ∧
    ∀ l ∈ lights, ∀ intensity : F,
      intensity ≤ lightingStep flags m spheres point normal view_angle specular intensity l := by
  constructor
  · unfold computeLightingIntensity
    by_cases hlit : flags.LIGHTING_ENABLED = false
    · rw [if_pos hlit]; exact zero_le_one
    · rw [if_neg hlit]
      exact lightingLoop_ge flags m hsqrt hpow spheres point normal view_angle specular 0
        lights hlights
  · intro l hl intensity
    exact lightingStep_ge flags m hsqrt hpow spheres point normal view_angle specular
      intensity l (hlights l hl)

/-- The hypotheses of the amended C11 hold, and it applies, over the reals for
the scene of `main` in render mode 4 at the shading point `(0, 0, 3)`. -/
theorem computeLightingIntensity_never_negative_witness :
    IsSqrt (MathFns.mk Real.sqrt Real.rpow) ∧ IsPowNonneg (MathFns.mk Real.sqrt Real.rpow) ∧
    (∀ l ∈ (mainLights : List (Light ℝ)), 0 ≤ l.intensity) ∧
    0 ≤ computeLightingIntensity ⟨true, true, true⟩ (MathFns.mk Real.sqrt Real.rpow)
      mainSpheres mainLights ⟨0, 0, 3⟩ ⟨0, -1, 0⟩ ⟨0, 0, -1⟩ 500 :=
  ⟨real_isSqrt, real_isPowNonneg, mainLights_nonneg,
    (computeLightingIntensity_never_negative ⟨true, true, true⟩ (MathFns.mk Real.sqrt Real.rpow)
      real_isSqrt real_isPowNonneg mainSpheres mainLights ⟨0, 0, 3⟩ ⟨0, -1, 0⟩ ⟨0, 0, -1⟩ 500
      mainLights_nonneg).1⟩

/-- C11 as stated fails: with lighting enabled and a single ambient light of
intensity `-1 / 2`, the only term added to the sum is `-1 / 2` and the
returned intensity is negative. -/
theorem computeLightingIntensity_never_negative_counterexample :
    computeLightingIntensity ⟨true, true, true⟩ (MathFns.mk Real.sqrt Real.rpow) mainSpheres
      [⟨LightType.Ambient, ⟨0, 0, 0⟩, ⟨0, 0, 0⟩, -1 / 2, ⟨0, 0, 0, 0⟩⟩]
      ⟨0, 0, 2⟩ ⟨0, 0, -1⟩ ⟨0, 0, -1⟩ 500 < 0 := by
  simp [computeLightingIntensity, lightingLoop, lightingStep]
  norm_num

/-- C12, as amended. `ClosestIntersection` restricts acceptable hit distances
to the open interval `(min_t, max_t)`: for every sphere list, ray and window
with `max_t ≤ FLT_MAX`, the distance of a returned hit lies strictly inside the
window; every root of a sphere of the list that lies strictly inside the window
makes `ClosestIntersection` return a hit at a distance no greater than that
root; and when every root of every sphere is at most `min_t` or at least
`max_t`, in particular when the only candidates are roots exactly equal to
`min_t` or to `max_t`, no hit is returned. -/
theorem ClosestIntersection_open_window (m : MathFns F) (spheres : List (SphereObject F))
    (origin direction : Vector3D F) (mint_t max_t : F) (hmax : max_t ≤ FLT_MAX) :
    (∀ i, (ClosestIntersection m spheres origin direction mint_t max_t).2 = some i →
      mint_t < (ClosestIntersection m spheres origin direction mint_t max_t).1 ∧
      (ClosestIntersection m spheres origin direction mint_t max_t).1 < max_t) ∧
    (∀ s ∈ spheres, ∀ t, IsRootOf (intersectRaySphere m origin direction s) t →
      mint_t < t → t < max_t →
      (ClosestIntersection m spheres origin direction mint_t max_t).2.isSome = true ∧
      (ClosestIntersection m spheres origin direction mint_t max_t).1 ≤ t) ∧
    ((∀ s ∈ spheres, ∀ t, IsRootOf (intersectRaySphere m origin direction s) t →
        t ≤ mint_t ∨ max_t ≤ t) →
      ClosestIntersection m spheres origin direction mint_t max_t = (FLT_MAX, none)) := by
  have hcases := closestLoop_cases m origin direction mint_t max_t spheres 0 (FLT_MAX, none)
  have hle := closestLoop_le_root m origin direction mint_t max_t spheres 0 (FLT_MAX, none)
  unfold ClosestIntersection
  refine ⟨?_, ?_, ?_⟩
  · intro i hi
    rcases hcases with h | ⟨k, s, t, -, hres, -, hwin, -⟩
    · rw [h] at hi; simp at hi
    · rw [hres]; exact hwin
  · intro s hs t hroot h1 h2
    have hle1 := hle s hs t hroot ⟨h1, h2⟩
    refine ⟨?_, hle1⟩
    rcases hcases with h | ⟨k, s1, t1, -, hres, -, -, -⟩
    · rw [h] at hle1
      exact absurd (lt_of_lt_of_le h2 hmax) (not_lt.mpr hle1)
    · rw [hres]; rfl
  · intro hall
    apply closestLoop_eq_self
    intro s hs t hroot hwin
    rcases hall s hs t hroot with h | h
    · exact absurd hwin.1 (not_lt.mpr h)
    · exact absurd hwin.2 (not_lt.mpr h)


/-- The hypothesis of the amended C12 holds, and it applies, for the scene of
`main`, the primary ray along `(0, 0, 1)` and the reference window
`(1, FLT_MAX)`. -/
theorem ClosestIntersection_open_window_witness :
    (FLT_MAX : ℝ) ≤ FLT_MAX ∧
    ∀ i, (ClosestIntersection (MathFns.mk Real.sqrt Real.rpow) mainSpheres CAMERA_POSITION
        ⟨0, 0, 1⟩ 1 FLT_MAX).2 = some i →
      1 < (ClosestIntersection (MathFns.mk Real.sqrt Real.rpow) mainSpheres CAMERA_POSITION
        ⟨0, 0, 1⟩ 1 FLT_MAX).1 ∧
      (ClosestIntersection (MathFns.mk Real.sqrt Real.rpow) mainSpheres CAMERA_POSITION
        ⟨0, 0, 1⟩ 1 FLT_MAX).1 < FLT_MAX :=
  ⟨le_refl _, (ClosestIntersection_open_window (MathFns.mk Real.sqrt Real.rpow) mainSpheres
    CAMERA_POSITION ⟨0, 0, 1⟩ 1 FLT_MAX (le_refl _)).1⟩

/-- C12 as stated fails: along `(0, 0, 1)` the sphere of centre `(0, 0, 3)` and
radius `1` has the roots `4` and `2`; with the window `min_t = 2`, `max_t = 3`
the root `2` lies in `[min_t, max_t)` but fails the test `mint_t < ts[1]`, and
no hit is returned. -/
theorem ClosestIntersection_open_window_counterexample :
    IsRootOf (intersectRaySphere (MathFns.mk Real.sqrt Real.rpow) CAMERA_POSITION ⟨0, 0, 1⟩
      ⟨⟨0, 0, 3⟩, 1, ⟨255, 0, 0, 255⟩, 500⟩) 2 ∧
    (2 : ℝ) ≤ 2 ∧ (2 : ℝ) < 3 ∧
    ClosestIntersection (MathFns.mk Real.sqrt Real.rpow)
      [⟨⟨0, 0, 3⟩, 1, ⟨255, 0, 0, 255⟩, 500⟩] CAMERA_POSITION ⟨0, 0, 1⟩ 2 3
      = (FLT_MAX, none) := by
  refine ⟨?_, le_refl _, by norm_num, ?_⟩
  · simp [IsRootOf, intersectRaySphere, rayDiscriminant, rayK1, rayK2, rayK3, dotProduct,
      vecSubtract, CAMERA_POSITION]
    norm_num [real_sqrt_4]
  · simp [ClosestIntersection, closestLoop, closestStep, acceptsRoot,
      intersectRaySphere, rayDiscriminant, rayK1, rayK2, rayK3, dotProduct, vecSubtract,
      CAMERA_POSITION]
    norm_num [FLT_MAX, real_sqrt_4]

/-- C13. Scene order does not affect shading: for every shading point,
normal, view vector, specular exponent and setting of the flags,
`computeLightingIntensity` returns the same intensity for every permutation of
the sphere list and every permutation of the light list (in exact arithmetic,
where addition is commutative and associative). -/
theorem computeLightingIntensity_perm (flags : RenderFlags) (m : MathFns F)
    (spheres spheres2 : List (SphereObject F)) (lights lights2 : List (Light F))
    (point normal view_angle : Vector3D F) (specular : F)
    (hspheres : spheres.Perm spheres2) (hlights : lights.Perm lights2) :
    computeLightingIntensity flags m spheres lights point normal view_angle specular
      = computeLightingIntensity flags m spheres2 lights2 point normal view_angle specular := by
  unfold computeLightingIntensity lightingLoop
  by_cases hlit : flags.LIGHTING_ENABLED = false
  · rw [if_pos hlit, if_pos hlit]
  · rw [if_neg hlit, if_neg hlit]
    have hfun : lightingStep flags m spheres point normal view_angle specular
        = lightingStep flags m spheres2 point normal view_angle specular := by
      funext intensity l
      exact lightingStep_perm_spheres flags m spheres spheres2 hspheres _ _ _ _ _ _
    rw [hfun]
    exact hlights.foldl_eq' (fun l1 _ l2 _ acc =>
      lightingStep_comm flags m spheres2 point normal view_angle specular acc l1 l2) 0

/-- The hypotheses of C13 hold, and C13 applies, over the reals for the scene
of `main` with its first two spheres and its first two lights exchanged. -/
theorem computeLightingIntensity_perm_witness :
    (mainSpheres : List (SphereObject ℝ)).Perm
      [⟨⟨2, 0, 4⟩, 1, ⟨0, 255, 0, 255⟩, 500⟩, ⟨⟨0, 1, 3⟩, 1, ⟨255, 0, 0, 255⟩, 500⟩,
        ⟨⟨-2, 0, 4⟩, 1, ⟨0, 0, 255, 255⟩, 10⟩, ⟨⟨0, -5001, 0⟩, 5000, ⟨255, 255, 0, 255⟩, 1000⟩] ∧
    (mainLights : List (Light ℝ)).Perm
      [⟨LightType.Point, ⟨2, 1, 0⟩, ⟨0, 0, 0⟩, 6 / 10, ⟨0, 0, 0, 0⟩⟩,
        ⟨LightType.Ambient, ⟨0, 0, 0⟩, ⟨0, 0, 0⟩, 2 / 10, ⟨0, 0, 0, 0⟩⟩,
        ⟨LightType.Directional, ⟨0, 0, 0⟩, ⟨1, 4, 4⟩, 2 / 10, ⟨0, 0, 0, 0⟩⟩] ∧
    computeLightingIntensity ⟨true, true, true⟩ (MathFns.mk Real.sqrt Real.rpow)
        mainSpheres mainLights ⟨0, 0, 3⟩ ⟨0, -1, 0⟩ ⟨0, 0, -1⟩ 500
      = computeLightingIntensity ⟨true, true, true⟩ (MathFns.mk Real.sqrt Real.rpow)
        [⟨⟨2, 0, 4⟩, 1, ⟨0, 255, 0, 255⟩, 500⟩, ⟨⟨0, 1, 3⟩, 1, ⟨255, 0, 0, 255⟩, 500⟩,
          ⟨⟨-2, 0, 4⟩, 1, ⟨0, 0, 255, 255⟩, 10⟩,
          ⟨⟨0, -5001, 0⟩, 5000, ⟨255, 255, 0, 255⟩, 1000⟩]
        [⟨LightType.Point, ⟨2, 1, 0⟩, ⟨0, 0, 0⟩, 6 / 10, ⟨0, 0, 0, 0⟩⟩,
          ⟨LightType.Ambient, ⟨0, 0, 0⟩, ⟨0, 0, 0⟩, 2 / 10, ⟨0, 0, 0, 0⟩⟩,
          ⟨LightType.Directional, ⟨0, 0, 0⟩, ⟨1, 4, 4⟩, 2 / 10, ⟨0, 0, 0, 0⟩⟩]
        ⟨0, 0, 3⟩ ⟨0, -1, 0⟩ ⟨0, 0, -1⟩ 500 :=
  ⟨List.Perm.swap _ _ _, List.Perm.swap _ _ _,
    computeLightingIntensity_perm ⟨true, true, true⟩ (MathFns.mk Real.sqrt Real.rpow) _ _ _ _
      ⟨0, 0, 3⟩ ⟨0, -1, 0⟩ ⟨0, 0, -1⟩ 500 (List.Perm.swap _ _ _) (List.Perm.swap _ _ _)⟩

/-- C14. For every pair of canvas coordinates `(x, y)`, `canvasToViewport`
returns `(x * Vw / W * aspect, y * Vh / H, d)` with `Vw = Vh = 1`, `W = 800`,
`H = 600`, `aspect = W / H` and `d = 1`, which in exact arithmetic is
`(x / 600, y / 600, 1)`: the third component is always `1` and `x` and `y` are
scaled by the same factor. -/
theorem canvasToViewport_eq (x y : F) :
    canvasToViewport x y
      = ⟨x * 1 / 800 * ((800 : F) / 600), y * 1 / 600, 1⟩ ∧
    canvasToViewport x y = ⟨x / 600, y / 600, 1⟩ ∧
    (canvasToViewport x y).z = 1 := by
  have h : canvasToViewport x y = ⟨x * 1 / 800 * ((800 : F) / 600), y * 1 / 600, 1⟩ := by
    simp only [canvasToViewport, ASPECT_RATIO, WIDTH, HEIGHT, VIEWPORT_SIZE,
      PROJECTION_PLANE_Z, Int.cast_ofNat, Int.cast_one]
  refine ⟨h, ?_, ?_⟩
  · rw [h]
    simp only [Vector3D.mk.injEq, and_true]
    constructor
    · field_simp
    · ring
  · rw [h]

/-- C15. For every scene, shading point, normal and setting of the lighting
and shadow flags, when the specular exponent is the sentinel `-1` the intensity
returned by `computeLightingIntensity` is the same with the specular flag
enabled as with it disabled (`spec1`, `spec2` arbitrary), and the same for any
two view vectors. -/
theorem computeLightingIntensity_specular_sentinel (lit spec1 spec2 shadows : Bool) (m : MathFns F)
    (spheres : List (SphereObject F)) (lights : List (Light F))
    (point normal view1 view2 : Vector3D F) :
    computeLightingIntensity ⟨lit, spec1, shadows⟩ m spheres lights point normal view1 (-1)
      = computeLightingIntensity ⟨lit, spec2, shadows⟩ m spheres lights point normal view2
          (-1) := by
  have hstep : ∀ (sp : Bool) (view : Vector3D F) (intensity : F) (l : Light F),
      lightingStep ⟨lit, sp, shadows⟩ m spheres point normal view (-1) intensity l
        = lightingStep ⟨lit, false, shadows⟩ m spheres point normal ⟨0, 0, 0⟩ (-1)
            intensity l := by
    intro sp view intensity l
    unfold lightingStep specularTerm
    simp
  unfold computeLightingIntensity lightingLoop
  have hfun : ∀ (sp : Bool) (view : Vector3D F),
      lightingStep ⟨lit, sp, shadows⟩ m spheres point normal view (-1)
        = lightingStep ⟨lit, false, shadows⟩ m spheres point normal ⟨0, 0, 0⟩ (-1) := by
    intro sp view
    funext intensity l
    exact hstep sp view intensity l
  rw [hfun spec1 view1, hfun spec2 view2]

/-- C16. The second scan of `traceRay` is redundant: for every sphere list,
ray and window the pair `(closest_t, closest_sphere)` after the loop of lines
170-181 is the pair `ClosestIntersection` returned, so `traceRay` returns what
the single-scan tracer of the specification returns, which shades the hit
chosen by `ClosestIntersection`. -/
theorem traceRay_second_scan_redundant [FloorRing F] (flags : RenderFlags) (m : MathFns F)
    (spheres : List (SphereObject F)) (lights : List (Light F))
    (origin direction : Vector3D F) (mint_t max_t : F) :
    traceRayHit m spheres origin direction mint_t max_t
      = ClosestIntersection m spheres origin direction mint_t max_t ∧
    traceRay flags m spheres lights origin direction mint_t max_t
      = traceRaySingleScan flags m spheres lights origin direction mint_t max_t := by
  have hscan : traceRayHit m spheres origin direction mint_t max_t
      = ClosestIntersection m spheres origin direction mint_t max_t := by
    unfold traceRayHit
    apply closestLoop_eq_self
    intro s hs t hroot hwin
    exact closestLoop_le_root m origin direction mint_t max_t spheres 0 (FLT_MAX, none)
      s hs t hroot hwin
  refine ⟨hscan, ?_⟩
  unfold traceRay traceRaySingleScan
  rw [hscan]

/-- C17. Over an ordered field with a square root, for every sphere list with
positive radii, every origin and non-zero direction: when `traceRay` hits the
sphere `S` at distance `t`, the hit point `P = O + t * D` lies on the surface of
`S` (`|P - S.center| = S.radius`), and the normal passed to
`computeLightingIntensity`, `(P - S.center) / |P - S.center|`, has length
exactly `1`. -/
theorem traceRay_hit_normal_unit (m : MathFns F) (hsqrt : IsSqrt m) (spheres : List (SphereObject F))
    (origin direction : Vector3D F) (mint_t max_t : F) (t : F) (i : Nat)
    (hD : direction ≠ ⟨0, 0, 0⟩) (hradius : ∀ s ∈ spheres, 0 < s.radius)
    (hhit : traceRayHit m spheres origin direction mint_t max_t = (t, some i)) :
    ∃ S, spheres[i]? = some S ∧
      vecLength m (vecSubtract (hitPoint origin direction t) S.center) = S.radius ∧
      vecLength m (hitNormal m (hitPoint origin direction t) S) = 1 := by
  obtain ⟨S, hS, hon⟩ := ClosestIntersection_hit_on_sphere m hsqrt spheres origin direction
    mint_t max_t hD t i (by rw [← traceRayHit_eq, hhit])
  have hr : 0 < S.radius := hradius S (List.getElem?_mem hS)
  have hlen : vecLength m (vecSubtract (hitPoint origin direction t) S.center) = S.radius := by
    unfold vecLength
    exact IsSqrt.eq_of_mul_self m hsqrt _ _ (le_of_lt hr) hon.symm
  refine ⟨S, hS, hlen, ?_⟩
  unfold hitNormal
  rw [hlen]
  unfold vecLength
  apply IsSqrt.eq_of_mul_self m hsqrt _ _ zero_le_one
  have hne : S.radius ≠ 0 := ne_of_gt hr
  have : dotProduct (vecMultiply (1 / S.radius)
        (vecSubtract (hitPoint origin direction t) S.center))
      (vecMultiply (1 / S.radius) (vecSubtract (hitPoint origin direction t) S.center))
      = (1 / S.radius) * (1 / S.radius) *
        dotProduct (vecSubtract (hitPoint origin direction t) S.center)
          (vecSubtract (hitPoint origin direction t) S.center) := by
    simp only [dotProduct, vecMultiply]
    ring
  rw [this, hon]
  field_simp

/-- The hypotheses of C17 hold, and C17 applies, over the reals for the scene
of `main` and the primary ray along `(0, 0, 1)`, which hits the first sphere at
distance `3`. -/
theorem traceRay_hit_normal_unit_witness :
    IsSqrt (MathFns.mk Real.sqrt Real.rpow) ∧
    (⟨0, 0, 1⟩ : Vector3D ℝ) ≠ ⟨0, 0, 0⟩ ∧
    (∀ s ∈ (mainSpheres : List (SphereObject ℝ)), 0 < s.radius) ∧
    traceRayHit (MathFns.mk Real.sqrt Real.rpow) mainSpheres CAMERA_POSITION ⟨0, 0, 1⟩ 1 FLT_MAX
      = (3, some 0) ∧
    ∃ S, (mainSpheres : List (SphereObject ℝ))[0]? = some S ∧
      vecLength (MathFns.mk Real.sqrt Real.rpow)
        (vecSubtract (hitPoint CAMERA_POSITION ⟨0, 0, 1⟩ 3) S.center) = S.radius ∧
      vecLength (MathFns.mk Real.sqrt Real.rpow)
        (hitNormal (MathFns.mk Real.sqrt Real.rpow) (hitPoint CAMERA_POSITION ⟨0, 0, 1⟩ 3) S)
        = 1 :=
  ⟨real_isSqrt, by simp, mainSpheres_radius_pos, mainSpheres_centre_hit,
    traceRay_hit_normal_unit (MathFns.mk Real.sqrt Real.rpow) real_isSqrt mainSpheres
      CAMERA_POSITION ⟨0, 0, 1⟩ 1 FLT_MAX 3 0 (by simp) mainSpheres_radius_pos
      mainSpheres_centre_hit⟩

/-- C18. Over an ordered field with a square root, with lighting enabled and
specular disabled, for every scene whose lights all have non-negative intensity
and every shading point, normal and view vector: the intensity returned by
`computeLightingIntensity` lies between `0` and the sum of the intensities of
all lights; hence the clamp `min(intensity, 1)` of `traceRay` leaves it
unchanged whenever that sum is at most `1`, and in particular for the lights of
`main`, whose intensities sum to `1`, with any spheres and at any shading
point. -/
theorem computeLightingIntensity_le_total (flags : RenderFlags) (m : MathFns F) (hsqrt : IsSqrt m)
    (spheres : List (SphereObject F)) (lights : List (Light F))
    (point normal view_angle : Vector3D F) (specular : F)
    (hlit : flags.LIGHTING_ENABLED = true) (hspec : flags.SPECULAR_LIGHTING_ENABLED = false)
    (hlights : ∀ l ∈ lights, 0 ≤ l.intensity) :
    0 ≤ computeLightingIntensity flags m spheres lights point normal view_angle specular ∧
    computeLightingIntensity flags m spheres lights point normal view_angle specular
      ≤ totalLightIntensity lights ∧
    (totalLightIntensity lights ≤ 1 →
      clampIntensity
          (computeLightingIntensity flags m spheres lights point normal view_angle specular)
        = computeLightingIntensity flags m spheres lights point normal view_angle specular) ∧
    ∀ (spheres2 : List (SphereObject F)) (point2 normal2 view2 : Vector3D F) (specular2 : F),
      clampIntensity
          (computeLightingIntensity flags m spheres2 mainLights point2 normal2 view2 specular2)
        = computeLightingIntensity flags m spheres2 mainLights point2 normal2 view2
            specular2 := by
  have hbound : ∀ (sph : List (SphereObject F)) (ls : List (Light F)) (P N V : Vector3D F)
      (sp : F), (∀ l ∈ ls, 0 ≤ l.intensity) →
      0 ≤ computeLightingIntensity flags m sph ls P N V sp ∧
      computeLightingIntensity flags m sph ls P N V sp ≤ totalLightIntensity ls := by
    intro sph ls P N V sp hls
    unfold computeLightingIntensity
    rw [if_neg (by simp [hlit])]
    constructor
    · have hstep : ∀ (acc : F) (l : Light F), 0 ≤ l.intensity →
          acc ≤ lightingStep flags m sph P N V sp acc l := by
        intro acc l hl
        have hs : ∀ x : F, specularTerm flags m N V (lightDirection l P) sp l.intensity x
            = x := by
          intro x
          unfold specularTerm
          rw [if_neg (by simp [hspec])]
        unfold lightingStep
        split_ifs
        · linarith
        · exact le_refl _
        · rw [hs]
          exact diffuseTerm_ge m hsqrt _ _ _ _ hl
      have hloop : ∀ (ls2 : List (Light F)) (acc : F), (∀ l ∈ ls2, 0 ≤ l.intensity) →
          acc ≤ lightingLoop flags m sph P N V sp acc ls2 := by
        intro ls2
        induction ls2 with
        | nil => intro acc _; exact le_refl _
        | cons l rest ih =>
          intro acc h
          unfold lightingLoop
          rw [List.foldl_cons]
          exact le_trans (hstep acc l (h l (List.mem_cons_self _ _)))
            (ih _ (fun l2 h2 => h l2 (List.mem_cons_of_mem _ h2)))
      exact hloop ls 0 hls
    · have := lightingLoop_le flags m hsqrt sph P N V sp 0 ls hspec hls
      rwa [zero_add] at this
  have hclamp : ∀ x : F, x ≤ 1 → clampIntensity x = x := by
    intro x hx
    unfold clampIntensity
    rw [if_neg (not_lt.mpr hx)]
  refine ⟨(hbound spheres lights point normal view_angle specular hlights).1,
    (hbound spheres lights point normal view_angle specular hlights).2, ?_, ?_⟩
  · intro htot
    exact hclamp _ (le_trans
      (hbound spheres lights point normal view_angle specular hlights).2 htot)
  · intro spheres2 point2 normal2 view2 specular2
    apply hclamp
    have := (hbound spheres2 mainLights point2 normal2 view2 specular2 mainLights_nonneg).2
    rwa [mainLights_total] at this

/-- The hypotheses of C18 hold, and C18 applies, over the reals for the scene
of `main` in render mode 2 at the shading point `(0, 0, 3)`. -/
theorem computeLightingIntensity_le_total_witness :
    IsSqrt (MathFns.mk Real.sqrt Real.rpow) ∧
    (⟨true, false, false⟩ : RenderFlags).LIGHTING_ENABLED = true ∧
    (⟨true, false, false⟩ : RenderFlags).SPECULAR_LIGHTING_ENABLED = false ∧
    (∀ l ∈ (mainLights : List (Light ℝ)), 0 ≤ l.intensity) ∧
    0 ≤ computeLightingIntensity ⟨true, false, false⟩ (MathFns.mk Real.sqrt Real.rpow)
      mainSpheres mainLights ⟨0, 0, 3⟩ ⟨0, -1, 0⟩ ⟨0, 0, -1⟩ 500 ∧
    computeLightingIntensity ⟨true, false, false⟩ (MathFns.mk Real.sqrt Real.rpow)
      mainSpheres mainLights ⟨0, 0, 3⟩ ⟨0, -1, 0⟩ ⟨0, 0, -1⟩ 500
      ≤ totalLightIntensity (mainLights : List (Light ℝ)) :=
  ⟨real_isSqrt, rfl, rfl, mainLights_nonneg,
    (computeLightingIntensity_le_total ⟨true, false, false⟩ (MathFns.mk Real.sqrt Real.rpow)
      real_isSqrt mainSpheres mainLights ⟨0, 0, 3⟩ ⟨0, -1, 0⟩ ⟨0, 0, -1⟩ 500 rfl rfl
      mainLights_nonneg).1,
    (computeLightingIntensity_le_total ⟨true, false, false⟩ (MathFns.mk Real.sqrt Real.rpow)
      real_isSqrt mainSpheres mainLights ⟨0, 0, 3⟩ ⟨0, -1, 0⟩ ⟨0, 0, -1⟩ 500 rfl rfl
      mainLights_nonneg).2.1⟩

end Claims

end RayTracer
